import Mathlib

/-!
Verification development for the office-hours-queue server core.

The definitions below are a shallow embedding of the Go server:
* the JSON decoding used by `validateQueueEntryDescription` (server/api/queue.go),
* the queue data model and the store operations (server/db/queue.go),
* the HTTP handlers of server/api/queue.go, including the events they publish,
* the transaction middleware of server/api/middleware.go as a trace model.

Machine integers are modelled as `Nat`/`Int`; SQL `NULL`able columns as
`Option`; fallible code as `Except`/`Option`.
-/

/-! ## JSON value model (for Go `encoding/json.Unmarshal`)

`validateQueueEntryDescription` and the prompts configuration use
`json.Unmarshal` into `[]string` and into `map[string]interface{}`.
We model the JSON grammar that `encoding/json` accepts: a single JSON
document, with optional leading/trailing whitespace, nothing after it.
Number values are kept as their source text (their numeric value is never
used by the code under verification). -/

inductive Json where
  | jnull : Json
  | jbool : Bool → Json
  | jnum : String → Json
  | jstr : String → Json
  | jarr : List Json → Json
  | jobj : List (String × Json) → Json
deriving Repr

def isJsonWs (c : Char) : Bool :=
  c = ' ' || c = '\t' || c = '\n' || c = '\r'

def skipWs : List Char → List Char
  | [] => []
  | c :: cs => if isJsonWs c then skipWs cs else c :: cs

def hexVal (c : Char) : Option Nat :=
  if '0' ≤ c ∧ c ≤ '9' then some (c.toNat - '0'.toNat)
  else if 'a' ≤ c ∧ c ≤ 'f' then some (c.toNat - 'a'.toNat + 10)
  else if 'A' ≤ c ∧ c ≤ 'F' then some (c.toNat - 'A'.toNat + 10)
  else none

/-- Parses the body of a JSON string literal after the opening quote,
decoding escapes; control characters below 0x20 must be escaped.
(`\u` escapes are mapped to the single code point they name; surrogate
pair combination is not needed by any input considered here.) -/
def parseStringRest (fuel : Nat) (cs : List Char) (acc : List Char) :
    Option (String × List Char) :=
  match fuel with
  | 0 => none
  | fuel + 1 =>
    match cs with
    | [] => none
    | '"' :: rest => some (String.mk acc.reverse, rest)
    | '\\' :: esc :: rest =>
      match esc with
      | '"' => parseStringRest fuel rest ('"' :: acc)
      | '\\' => parseStringRest fuel rest ('\\' :: acc)
      | '/' => parseStringRest fuel rest ('/' :: acc)
      | 'b' => parseStringRest fuel rest ('\x08' :: acc)
      | 'f' => parseStringRest fuel rest ('\x0c' :: acc)
      | 'n' => parseStringRest fuel rest ('\n' :: acc)
      | 'r' => parseStringRest fuel rest ('\x0d' :: acc)
      | 't' => parseStringRest fuel rest ('\t' :: acc)
      | 'u' =>
        match rest with
        | h1 :: h2 :: h3 :: h4 :: rest2 =>
          match hexVal h1, hexVal h2, hexVal h3, hexVal h4 with
          | some a, some b, some c, some d =>
            parseStringRest fuel rest2 (Char.ofNat (((a * 16 + b) * 16 + c) * 16 + d) :: acc)
          | _, _, _, _ => none
        | _ => none
      | _ => none
    | c :: rest =>
      if c.toNat < 0x20 then none else parseStringRest fuel rest (c :: acc)

def parseFrac (cs : List Char) : Option (List Char × List Char) :=
  match cs with
  | '.' :: r =>
    let p := r.span Char.isDigit
    if p.1.isEmpty then none else some ('.' :: p.1, p.2)
  | _ => some ([], cs)

def parseExp (cs : List Char) : Option (List Char × List Char) :=
  match cs with
  | c :: r =>
    if c = 'e' || c = 'E' then
      let sp : List Char × List Char :=
        match r with
        | s :: r2 => if s = '+' || s = '-' then ([s], r2) else ([], s :: r2)
        | [] => ([], [])
      let p := sp.2.span Char.isDigit
      if p.1.isEmpty then none else some (c :: (sp.1 ++ p.1), p.2)
    else some ([], c :: r)
  | [] => some ([], [])

/-- Parses a JSON number token, returning its source text. -/
def parseNumberChars (cs : List Char) : Option (List Char × List Char) :=
  let mp : List Char × List Char :=
    match cs with
    | '-' :: r => (['-'], r)
    | _ => ([], cs)
  match mp.2 with
  | '0' :: r =>
    match parseFrac r with
    | some (fr, r2) =>
      match parseExp r2 with
      | some (ex, r3) => some (mp.1 ++ '0' :: (fr ++ ex), r3)
      | none => none
    | none => none
  | c :: r =>
    if c.isDigit then
      let p := r.span Char.isDigit
      match parseFrac p.2 with
      | some (fr, r2) =>
        match parseExp r2 with
        | some (ex, r3) => some (mp.1 ++ c :: (p.1 ++ fr ++ ex), r3)
        | none => none
      | none => none
    else none
  | [] => none

mutual

def parseValue (fuel : Nat) (cs : List Char) : Option (Json × List Char) :=
  match fuel with
  | 0 => none
  | fuel + 1 =>
    match cs with
    | 'n' :: 'u' :: 'l' :: 'l' :: r => some (.jnull, r)
    | 't' :: 'r' :: 'u' :: 'e' :: r => some (.jbool true, r)
    | 'f' :: 'a' :: 'l' :: 's' :: 'e' :: r => some (.jbool false, r)
    | '"' :: r =>
      match parseStringRest (r.length + 1) r [] with
      | some (s, r2) => some (.jstr s, r2)
      | none => none
    | '[' :: r =>
      match skipWs r with
      | ']' :: r2 => some (.jarr [], r2)
      | r1 => parseArrayItems fuel r1 []
    | '\x7b' :: r =>
      match skipWs r with
      | '\x7d' :: r2 => some (.jobj [], r2)
      | r1 => parseObjMembers fuel r1 []
    | _ =>
      match parseNumberChars cs with
      | some (ds, r) => some (.jnum (String.mk ds), r)
      | none => none

def parseArrayItems (fuel : Nat) (cs : List Char) (acc : List Json) :
    Option (Json × List Char) :=
  match fuel with
  | 0 => none
  | fuel + 1 =>
    match parseValue fuel cs with
    | some (v, r) =>
      match skipWs r with
      | ',' :: r2 => parseArrayItems fuel (skipWs r2) (v :: acc)
      | ']' :: r2 => some (.jarr (v :: acc).reverse, r2)
      | _ => none
    | none => none

def parseObjMembers (fuel : Nat) (cs : List Char) (acc : List (String × Json)) :
    Option (Json × List Char) :=
  match fuel with
  | 0 => none
  | fuel + 1 =>
    match cs with
    | '"' :: r =>
      match parseStringRest (r.length + 1) r [] with
      | some (k, r2) =>
        match skipWs r2 with
        | ':' :: r3 =>
          match parseValue fuel (skipWs r3) with
          | some (v, r4) =>
            match skipWs r4 with
            | ',' :: r5 => parseObjMembers fuel (skipWs r5) ((k, v) :: acc)
            | '\x7d' :: r5 => some (.jobj ((k, v) :: acc).reverse, r5)
            | _ => none
          | none => none
        | _ => none
      | none => none
    | _ => none

end

/-- Parses a complete JSON document the way `encoding/json` does: optional
surrounding whitespace around a single value, and nothing else. -/
def parseJsonDoc (s : String) : Option Json :=
  let cs := skipWs s.data
  match parseValue (cs.length + 1) cs with
  | some (v, rest) => if (skipWs rest).isEmpty then some v else none
  | none => none

/-- Models Go `json.Unmarshal(data, &x)` for `x : []string`: it succeeds iff
the document is `null` (the slice is left at its zero value, length 0) or a
JSON array whose elements are strings or `null` (a `null` element leaves the
zero value `""`). -/
def unmarshalStringList (s : String) : Option (List String) :=
  match parseJsonDoc s with
  | some .jnull => some []
  | some (.jarr xs) =>
    xs.mapM (fun v =>
      match v with
      | .jstr t => some t
      | .jnull => some ""
      | _ => none)
  | _ => none

/-- Models Go `json.Unmarshal(data, &m)` for `m : map[string]interface\x7b\x7d`:
it succeeds iff the document is `null` or a JSON object. -/
def unmarshalStringMapOk (s : String) : Bool :=
  match parseJsonDoc s with
  | some .jnull => true
  | some (.jobj _) => true
  | _ => false

/-- Go `strings.TrimSpace` whitespace set restricted to the Latin-1 range
(space, tab, newline, vertical tab, form feed, carriage return, NEL, NBSP),
which is what `unicode.IsSpace` tests for these code points. -/
def isGoSpace (c : Char) : Bool :=
  c = ' ' || c = '\t' || c = '\n' || c = '\x0b' || c = '\x0c' || c = '\x0d' ||
  c = '\x85' || c = '\xa0'

def goTrimSpace (s : String) : String :=
  String.mk (((s.data.dropWhile isGoSpace).reverse.dropWhile isGoSpace).reverse)

/-! ## Description validation (server/api/queue.go `validateQueueEntryDescription`) -/

def maxDescriptionLength : Nat := 1500
def maxLocationLength : Nat := 300

/-- Shallow embedding of `validateQueueEntryDescription`:
* if prompts are configured, the description must be a JSON array matching
  the prompt count with every response non-empty after trimming;
* if no prompts are configured, the description must not unmarshal as a
  `[]string` nor as a map;
* the description must not exceed `maxDescriptionLength` bytes. -/
def validateQueueEntryDescription (description : String) (prompts : List String) :
    Except String Unit :=
  if description.utf8ByteSize > maxDescriptionLength then
    .error ("description is too long (max " ++ toString maxDescriptionLength ++ " characters)")
  else
    match unmarshalStringList description with
    | some jsonArray =>
      if prompts.length > 0 then
        if jsonArray.length ≠ prompts.length then
          .error ("wrong number of prompt responses, expected " ++
            toString prompts.length ++ " got " ++ toString jsonArray.length)
        else
          match (List.range jsonArray.length).find?
              (fun i => goTrimSpace (jsonArray.getD i "") = "") with
          | some i =>
            .error ("empty response for prompt #" ++ toString (i + 1) ++ ": " ++
              prompts.getD i "")
          | none => .ok ()
      else
        .error "oops, JSON array-like string is not allowed as description"
    | none =>
      if prompts.length > 0 then
        .error "hmm, got description in unexpected format. Try clear cache and refresh?"
      else
        if unmarshalStringMapOk description then
          .error "oops, JSON object-like string is not allowed as description"
        else
          .ok ()

example : parseJsonDoc "[1]" = some (.jarr [.jnum "1"]) := by rfl
example : unmarshalStringList "[1]" = none := by rfl
example : validateQueueEntryDescription "[1]" [] = .ok () := by rfl
example : validateQueueEntryDescription "help me" [] = .ok () := by rfl
example : (validateQueueEntryDescription "[\"a\"]" []).isOk = false := by rfl
example : validateQueueEntryDescription "[\"a\",\"b\"]" ["A", "B"] = .ok () := by rfl
example : (validateQueueEntryDescription "[\"a\"]" ["A", "B"]).isOk = false := by rfl

/-! ## Data model

`QueueEntry` mirrors the `queue_entries` row (server/db/queue.go and the
`queue_entries` schema named in the spec): `active` is a nullable sentinel,
modelled as `Bool` (`true` = `active IS NOT NULL`); `removed_at`/`removed_by`
are nullable. Times are seconds (`Int`); entry ids are `Nat`, standing for the
time-ordered KSUIDs (monotonically increasing at creation). -/

structure QueueEntry where
  id : Nat
  queue : Nat
  email : String
  name : String
  location : String
  description : String
  priority : Int
  pinned : Bool
  helping : String
  helped : Bool
  active : Bool
  removedAt : Option Int
  removedBy : Option String
deriving DecidableEq, Repr

structure QueueConfiguration where
  enableLocationField : Bool
  preventUnregistered : Bool
  preventGroups : Bool
  preventGroupsBoost : Bool
  prioritizeNew : Bool
  cooldown : Nat
  virtualMode : Bool
  scheduled : Bool
  /-- `prompts` is stored as raw JSON (`json.RawMessage` in the Go struct)
  and unmarshalled into `[]string` at each use site. -/
  prompts : String
  manualOpen : Bool
deriving DecidableEq, Repr

structure Queue where
  id : Nat
  course : Nat
  active : Bool
deriving DecidableEq, Repr

/-- The relational store. `courseAdmins` models the `course_admins` relation
(Modelled from the spec: the course/admin db code is not under src/, only its
callers; §2 "Given a session identity, decides site-admin / course-admin /
entry-owner capabilities"). `schedules` is keyed by `(queue, day)`. -/
structure DB where
  queues : List Queue
  configs : List (Nat × QueueConfiguration)
  schedules : List (Nat × Nat × String)
  roster : List (Nat × String)
  groups : List (Nat × Nat × String)
  courseAdmins : List (Nat × String)
  entries : List QueueEntry
  nextEntryId : Nat
deriving DecidableEq, Repr

/-- Request-time environment: wall-clock seconds, local weekday, minutes since
local midnight, and the smallest entry id whose embedded timestamp is today's
local midnight (`ksuid.FromParts(start, 0)` in `GetEntryPriority`). -/
structure Env where
  now : Int
  day : Nat
  localMinutes : Nat
  firstIdOfDay : Nat
deriving DecidableEq, Repr

/-- Modelled from the spec: `CurrentHalfHour` (its Go definition is not under
src/); §4.2: "Current half-hour" is `floor(localMinutes/30)`, yielding 0..47. -/
def currentHalfHour (localMinutes : Nat) : Nat := localMinutes / 30

/-! ## Store reads (server/db/queue.go) -/

def getQueue (db : DB) (queue : Nat) : Option Queue :=
  db.queues.find? (fun q => q.active && q.id == queue)

def getQueueConfiguration (db : DB) (queue : Nat) : Option QueueConfiguration :=
  (db.configs.find? (fun p => p.1 == queue)).map Prod.snd

def getCurrentDaySchedule (db : DB) (queue : Nat) (day : Nat) : Option String :=
  (db.schedules.find? (fun p => p.1 == queue && p.2.1 == day)).map (fun p => p.2.2)

/-- `CourseAdmin` membership (Modelled from the spec: the db function itself
is not under src/; it decides course-admin capability for a course/email). -/
def courseAdmin (db : DB) (course : Nat) (email : String) : Bool :=
  db.courseAdmins.any (fun p => p.1 == course && p.2 == email)

def userInQueueRoster (db : DB) (queue : Nat) (email : String) : Bool :=
  db.roster.any (fun p => p.1 == queue && p.2 == email)

/-- The `teammates` view (Modelled from the spec: the schema is not under
src/; §6: "a view joining two roster/group rows over (queue,group_id)"):
`t` is a teammate of `email` in `queue` iff some group of that queue contains
both and they differ. -/
def isTeammate (db : DB) (queue : Nat) (email t : String) : Bool :=
  db.groups.any (fun g =>
    g.1 == queue && g.2.2 == email &&
      db.groups.any (fun h => h.1 == queue && h.2.1 == g.2.1 && h.2.2 == t && t ≠ email))

def teammateInQueue (db : DB) (queue : Nat) (email : String) : Bool :=
  db.entries.any (fun e =>
    e.queue == queue && e.active && isTeammate db queue email e.email)

def getQueueEntry (db : DB) (entry : Nat) (allowRemoved : Bool) : Option QueueEntry :=
  db.entries.find? (fun e => e.id == entry && (allowRemoved || e.active))

def getActiveQueueEntriesForUser (db : DB) (queue : Nat) (email : String) :
    List QueueEntry :=
  db.entries.filter (fun e => e.queue == queue && e.email == email && e.active)

def optionMaxInt : Option Int → Option Int → Option Int
  | none, b => b
  | some a, none => some a
  | some a, some b => some (max a b)

/-- `LastHelpedTime`: MAX(removed_at) over this user's archived entries in the
queue that were helped and removed by someone else (`removed_by != email` is
SQL three-valued, so a NULL `removed_by` never matches). -/
def lastHelpedTime (db : DB) (queue : Nat) (email : String) : Option Int :=
  (db.entries.filterMap (fun e =>
    if e.email == email && e.queue == queue && !e.active &&
        (match e.removedBy with
         | some r => r ≠ email
         | none => false) && e.helped then
      e.removedAt
    else none)).foldr (fun t acc => optionMaxInt (some t) acc) none

/-- Message built by `CanAddEntry` when the cooldown has not elapsed;
`wait` is the remaining duration in whole seconds (`int(wait.Minutes())`
truncates toward zero, which for the positive `wait` in this branch is
`wait / 60` in `Nat`). -/
def cooldownMessage (wait : Nat) : String :=
  "you are attempting to sign up too soon after you were last helped. Try again in " ++
    (if wait / 60 = 0 then toString wait ++ " seconds"
     else if wait / 60 = 1 then "a minute"
     else toString (wait / 60) ++ " minutes")

/-- The open/closed gate of `CanAddEntry`: scheduled queues consult today's
schedule character at the current half-hour (only `'c'` closes); unscheduled
queues consult `manual_open`. A schedule shorter than 48 characters never
happens through the API; out-of-range indexing is modelled with `'c'`. -/
def openCheck (db : DB) (env : Env) (queue : Nat) (config : QueueConfiguration) :
    Except String Unit :=
  if config.scheduled then
    match getCurrentDaySchedule db queue env.day with
    | none => .error "failed to get queue schedule"
    | some schedule =>
      if (schedule.data.getD (currentHalfHour env.localMinutes) 'c') = 'c' then
        .error "the queue is closed"
      else .ok ()
  else if !config.manualOpen then .error "the queue is closed"
  else .ok ()

/-- The roster / teammate / cooldown checks of `CanAddEntry`, in source
order, first failure wins. -/
def eligibilityTail (db : DB) (env : Env) (queue : Nat) (email : String)
    (config : QueueConfiguration) : Except String Unit :=
  if config.preventUnregistered && !userInQueueRoster db queue email then
    .error "you are not in the course roster"
  else if config.preventGroups && teammateInQueue db queue email then
    .error "your teammate is in the queue"
  else
    match lastHelpedTime db queue email with
    | some t =>
      if env.now - t < (config.cooldown : Int) then
        .error (cooldownMessage ((t + (config.cooldown : Int) - env.now).toNat))
      else .ok ()
    | none => .ok ()

/-- `CanAddEntry` (server/db/queue.go): the eligibility pipeline — course
admins always pass; then the open check; then roster, teammates, cooldown. -/
def canAddEntry (db : DB) (env : Env) (queue : Nat) (email : String) :
    Except String Unit :=
  match getQueue db queue with
  | none => .error "failed to get queue"
  | some q =>
    if courseAdmin db q.course email then .ok ()
    else
      match getQueueConfiguration db queue with
      | none => .error "failed to get queue configuration"
      | some config =>
        match openCheck db env queue config with
        | .error e => .error e
        | .ok () => eligibilityTail db env queue email config

/-- `GetEntryPriority` (server/db/queue.go): daily-first-question boost. -/
def getEntryPriority (db : DB) (env : Env) (queue : Nat) (email : String) : Int :=
  match getQueueConfiguration db queue with
  | none => 0
  | some config =>
    if !config.prioritizeNew then 0
    else
      let helpedToday (e : QueueEntry) : Bool :=
        e.queue == queue && e.id ≥ env.firstIdOfDay &&
          (match e.removedBy with
           | some r => r ≠ e.email
           | none => false) && e.helped
      let personalEntries :=
        (db.entries.filter (fun e => e.email == email && helpedToday e)).length
      if personalEntries > 0 then 0
      else if !config.preventGroupsBoost then 1
      else
        let groupEntries :=
          (db.entries.filter (fun e => isTeammate db queue email e.email && helpedToday e)).length
        if groupEntries > 0 then 0 else 1

/-! ## Store mutations (server/db/queue.go)

The one-active-entry-per-(queue,email) partial unique index lives in the
schema, which is not under src/; it is Modelled from the spec (§4.1: "unique
constraints enforce one active entry per (queue, email)"): a write that would
leave two active rows with the same key fails and changes nothing. -/

/-- True iff some row other than `exceptId` is active with this key, i.e. the
modelled unique index would reject making `exceptId` active with this key. -/
def activeConflict (entries : List QueueEntry) (queue : Nat) (email : String)
    (exceptId : Nat) : Bool :=
  entries.any (fun e =>
    e.id ≠ exceptId && e.active && e.queue == queue && e.email == email)

/-- Postgres error surfaced by a store write: either a `pq.Error` carrying an
SQL state code, or any other driver/database failure. -/
inductive PgError where
  | pq (code : String) (message : String)
  | generic (message : String)
deriving DecidableEq, Repr

/-- `AddQueueEntry` (INSERT ... RETURNING *). The inserted columns are id,
queue, email, name, location, description, priority; the remaining columns
take their schema defaults (Modelled from the spec §3/§4.3: a new entry is
active, unpinned, not helped, not being helped, with no removal data).
`23505` is the Postgres unique-violation state of the modelled index. -/
def addQueueEntry (db : DB) (e : QueueEntry) : Except PgError (DB × QueueEntry) :=
  if activeConflict db.entries e.queue e.email db.nextEntryId then
    .error (.pq "23505" "duplicate key value violates unique constraint")
  else
    let newEntry : QueueEntry :=
      { id := db.nextEntryId, queue := e.queue, email := e.email, name := e.name,
        location := e.location, description := e.description, priority := e.priority,
        pinned := false, helping := "", helped := false, active := true,
        removedAt := none, removedBy := none }
    .ok ({ db with entries := db.entries ++ [newEntry], nextEntryId := db.nextEntryId + 1 }, newEntry)

/-- `UpdateQueueEntry`: UPDATE name, location, description WHERE id AND active. -/
def updateQueueEntryRow (db : DB) (entry : Nat) (e : QueueEntry) : DB :=
  { db with entries := db.entries.map (fun x =>
      if x.id = entry ∧ x.active then
        { x with name := e.name, location := e.location, description := e.description }
      else x) }

/-- `RemoveQueueEntry`: UPDATE ... WHERE active AND id RETURNING *; zero rows
surface as `sql.ErrNoRows` (`none` here). -/
def removeQueueEntry (db : DB) (entry : Nat) (remover : String) (now : Int) :
    Option (DB × QueueEntry) :=
  match db.entries.find? (fun x => x.id == entry && x.active) with
  | none => none
  | some target =>
    let archived : QueueEntry :=
      { target with pinned := false, active := false, helping := "", removedAt := some now, removedBy := some remover, helped := true }
    some ({ db with entries := db.entries.map (fun x =>
        if x.id = entry ∧ x.active then archived else x) }, archived)

/-- `PinQueueEntry`: UPDATE ... SET active, clear removal data WHERE id; the
modelled unique index rejects the write if another active row holds the key. -/
def pinQueueEntry (db : DB) (entry : Nat) : Except PgError DB :=
  match db.entries.find? (fun x => x.id == entry) with
  | none => .ok db
  | some target =>
    if activeConflict db.entries target.queue target.email entry then
      .error (.pq "23505" "duplicate key value violates unique constraint")
    else
      .ok { db with entries := db.entries.map (fun x =>
        if x.id = entry then
          { x with active := true, removedAt := none, removedBy := none, helped := false, pinned := true }
        else x) }

/-- `SetQueueEntryHelping`: UPDATE helping WHERE id (no active guard). -/
def setQueueEntryHelping (db : DB) (entry : Nat) (helping : String) : DB :=
  { db with entries := db.entries.map (fun x =>
      if x.id = entry then { x with helping := helping } else x) }

/-- `SetHelpedStatus`: UPDATE helped WHERE id. -/
def setHelpedStatus (db : DB) (entry : Nat) (helped : Bool) : DB :=
  { db with entries := db.entries.map (fun x =>
      if x.id = entry then { x with helped := helped } else x) }

/-- `RandomizeQueueEntries`: UPDATE priority = random 1..10 WHERE active AND
queue. The database randomness is an oracle `rand` indexed by entry id. -/
def randomizeQueueEntries (db : DB) (queue : Nat) (rand : Nat → Int) : DB :=
  { db with entries := db.entries.map (fun x =>
      if x.active ∧ x.queue = queue then { x with priority := rand x.id } else x) }

/-- `ClearQueueEntries`: UPDATE ... WHERE active AND queue. Note: `helping`
is not among the SET columns. -/
def clearQueueEntries (db : DB) (queue : Nat) (remover : String) (now : Int) : DB :=
  { db with entries := db.entries.map (fun x =>
      if x.active ∧ x.queue = queue then
        { x with active := false, removedAt := some now, removedBy := some remover, pinned := false, helped := false }
      else x) }

/-! ## Display order (server/db/queue.go `GetQueueEntries`, `GetQueueStack`) -/

/-- The comparison realised by `ORDER BY pinned DESC, priority DESC, id`. -/
def entryLe (a b : QueueEntry) : Prop :=
  (a.pinned = true ∧ b.pinned = false) ∨
    (a.pinned = b.pinned ∧
      (b.priority < a.priority ∨ (a.priority = b.priority ∧ a.id ≤ b.id)))

instance : DecidableRel entryLe := fun a b => by
  unfold entryLe; infer_instance

instance : IsTotal QueueEntry entryLe := by
  constructor
  intro a b
  unfold entryLe
  rcases a with ⟨_, _, _, _, _, _, ap, apin, _, _, _, _, _⟩
  rcases b with ⟨_, _, _, _, _, _, bp, bpin, _, _, _, _, _⟩
  simp only
  cases apin <;> cases bpin <;> simp <;> omega

instance : IsTrans QueueEntry entryLe := by
  constructor
  intro a b c hab hbc
  unfold entryLe at *
  rcases hab with h1 | ⟨h1, h2⟩ <;> rcases hbc with h3 | ⟨h3, h4⟩
  · exact absurd h3.1 (by simp [h1.2])
  · exact Or.inl ⟨h1.1, h3 ▸ h1.2⟩
  · exact Or.inl ⟨h1 ▸ h3.1, h3.2⟩
  · refine Or.inr ⟨h1.trans h3, ?_⟩
    rcases h2 with h2 | ⟨h2, h5⟩ <;> rcases h4 with h4 | ⟨h4, h6⟩
    · exact Or.inl (h4.trans h2)
    · exact Or.inl (h4 ▸ h2)
    · exact Or.inl (h2 ▸ h4)
    · exact Or.inr ⟨h2.trans h4, h5.trans h6⟩

/-- `GetQueueEntries`: SELECT ... WHERE queue AND active ORDER BY pinned DESC,
priority DESC, id. SQL returns some list sorted by that key; insertion sort is
the deterministic representative (ids are unique, so the order is unique). -/
def getQueueEntries (db : DB) (queue : Nat) : List QueueEntry :=
  List.insertionSort entryLe
    (db.entries.filter (fun e => e.queue == queue && e.active))

/-- The comparison realised by `ORDER BY removed_at DESC, id DESC` (archived
rows always carry `removed_at`; a NULL would sort first in Postgres DESC). -/
def stackLe (a b : QueueEntry) : Prop :=
  (match a.removedAt, b.removedAt with
   | some x, some y => y < x ∨ (x = y ∧ b.id ≤ a.id)
   | some _, none => False
   | none, some _ => True
   | none, none => b.id ≤ a.id)

instance : DecidableRel stackLe := fun a b => by
  unfold stackLe; exact
    match a.removedAt, b.removedAt with
    | some _, some _ => inferInstance
    | some _, none => inferInstance
    | none, some _ => inferInstance
    | none, none => inferInstance

/-- `GetQueueStack`: SELECT ... WHERE queue AND active IS NULL ORDER BY
removed_at DESC, id DESC LIMIT limit. -/
def getQueueStack (db : DB) (queue : Nat) (limit : Nat) : List QueueEntry :=
  (List.insertionSort stackLe
    (db.entries.filter (fun e => e.queue == queue && !e.active))).take limit

/-! ## Events and HTTP handlers (server/api/queue.go)

Each handler runs inside the request transaction (§4.7) and ends by calling
`s.ps.Pub` for each event; the model returns the new store, the events in
publish order, and the HTTP status, or a `StatusError` on failure. The
payload of each publish is tagged by the projection the code serialises
(`Anonymized()` and `RemovedEntry()` are projections of the entry whose field
lists are not under src/; the tag records faithfully which one is sent). -/

inductive Topic where
  | generic (queue : Nat)
  | admin (queue : Nat)
  | nonpriv (queue : Nat)
  | emailTopic (queue : Nat) (addr : String)
deriving DecidableEq, Repr

inductive Payload where
  | fullEntry (e : QueueEntry)
  | anonEntry (e : QueueEntry)
  | removedEntryView (e : QueueEntry)
  | strPayload (s : String)
  | nothing
deriving DecidableEq, Repr

structure Event where
  name : String
  payload : Payload
  topic : Topic
deriving DecidableEq, Repr

structure StatusError where
  status : Nat
  message : String
deriving DecidableEq, Repr

abbrev HandlerResult := Except StatusError (DB × List Event × Nat)

/-- Message wrapper used by the signup handler around `CanAddEntry` denials. -/
def signupDenied (inner : String) : String :=
  "My records say you aren\x27t allowed to sign up right now: " ++ inner ++ "."

def conflictMessage : String :=
  "Don\x27t get greedy! You can only be on the queue once at a time."

/-- `AddQueueEntry` handler (signup). The JSON body has already been decoded
into `description`/`location` (a malformed body is a 400 with no store access
and no events; it is covered by the trace model below). -/
def addQueueEntryHandler (db : DB) (env : Env) (queue : Nat)
    (email name description location : String) : HandlerResult :=
  let currentEntries := getActiveQueueEntriesForUser db queue email
  if currentEntries.length > 0 then
    .error ⟨409, conflictMessage⟩
  else
    match canAddEntry db env queue email with
    | .error e => .error ⟨403, signupDenied e⟩
    | .ok () =>
      if description = "" ∨ name = "" then
        .error ⟨400, "It looks like you left out some fields in the queue entry!"⟩
      else if location.utf8ByteSize > maxLocationLength then
        .error ⟨400, "Location field is too long (max " ++ toString maxLocationLength ++ " characters)"⟩
      else
        match getQueueConfiguration db queue with
        | none => .error ⟨500, "failed to get queue configuration"⟩
        | some config =>
          match unmarshalStringList config.prompts with
          | none => .error ⟨500, "failed to unmarshal prompts"⟩
          | some prompts =>
            match validateQueueEntryDescription description prompts with
            | .error e => .error ⟨400, e⟩
            | .ok () =>
              let priority := getEntryPriority db env queue email
              let candidate : QueueEntry :=
                { id := 0, queue := queue, email := email, name := name,
                  location := location, description := description,
                  priority := priority, pinned := false, helping := "",
                  helped := false, active := true, removedAt := none,
                  removedBy := none }
              match addQueueEntry db candidate with
              | .error (.pq _ _) => .error ⟨409, conflictMessage⟩
              | .error (.generic _) => .error ⟨500, "failed to insert queue entry"⟩
              | .ok (db2, newEntry) =>
                .ok (db2,
                  [⟨"ENTRY_CREATE", .fullEntry newEntry, .admin queue⟩,
                   ⟨"ENTRY_CREATE", .anonEntry newEntry, .nonpriv queue⟩,
                   ⟨"ENTRY_UPDATE", .fullEntry newEntry, .emailTopic queue email⟩],
                  201)

/-- `UpdateQueueEntry` handler. -/
def updateQueueEntryHandler (db : DB) (queue : Nat) (email name : String)
    (entryId : Nat) (description location : String) : HandlerResult :=
  match getQueueEntry db entryId false with
  | none => .error ⟨404, "I\x27m not able to find that queue entry. Perhaps you were popped off quite recently?"⟩
  | some e =>
    if e.email ≠ email then
      .error ⟨403, "You can\x27t edit someone else\x27s queue entry!"⟩
    else if name = "" ∨ description = "" then
      .error ⟨400, "It looks like you left out some fields in the queue entry!"⟩
    else if location.utf8ByteSize > maxLocationLength then
      .error ⟨400, "Location field is too long (max " ++ toString maxLocationLength ++ " characters)"⟩
    else
      match getQueueConfiguration db queue with
      | none => .error ⟨500, "failed to get queue configuration"⟩
      | some config =>
        match unmarshalStringList config.prompts with
        | none => .error ⟨500, "failed to unmarshal prompts"⟩
        | some prompts =>
          match validateQueueEntryDescription description prompts with
          | .error err => .error ⟨400, err⟩
          | .ok () =>
            let db2 := updateQueueEntryRow db entryId
              { e with name := name, location := location, description := description }
            let newEntry : QueueEntry :=
              { id := entryId, queue := queue, email := e.email, name := name,
                location := location, description := description,
                priority := e.priority, pinned := e.pinned, helping := e.helping,
                helped := e.helped, active := e.active, removedAt := e.removedAt,
                removedBy := e.removedBy }
            .ok (db2,
              [⟨"ENTRY_UPDATE", .fullEntry newEntry, .admin queue⟩,
               ⟨"ENTRY_UPDATE", .fullEntry newEntry, .emailTopic queue email⟩],
              204)

/-- `CanRemoveQueueEntry` (server/db/queue.go): course admin of the URL
queue's course, or any entry row with this id owned by the caller — with no
constraint connecting the entry to the URL queue. -/
def canRemoveQueueEntry (db : DB) (queue : Nat) (entry : Nat) (email : String) :
    Except String Bool :=
  match getQueue db queue with
  | none => .error "failed to get queue"
  | some q =>
    if courseAdmin db q.course email then .ok true
    else .ok (db.entries.any (fun e => e.id == entry && e.email == email))

/-- `RemoveQueueEntry` handler. -/
def removeQueueEntryHandler (db : DB) (env : Env) (queue : Nat) (email : String)
    (entryId : Nat) : HandlerResult :=
  match canRemoveQueueEntry db queue entryId email with
  | .error _ => .error ⟨403, "Removing someone else\x27s queue entry isn\x27t very nice!"⟩
  | .ok false => .error ⟨403, "Removing someone else\x27s queue entry isn\x27t very nice!"⟩
  | .ok true =>
    match removeQueueEntry db entryId email env.now with
    | none => .error ⟨404, "That queue entry was already removed by another staff member! Try the next one on the queue."⟩
    | some (db2, e) =>
      .ok (db2,
        [⟨"ENTRY_REMOVE", .fullEntry e, .admin queue⟩,
         ⟨"ENTRY_REMOVE", .anonEntry e, .nonpriv queue⟩],
        204)

/-- `PinQueueEntry` handler. The `EnsureCourseAdmin` routing middleware gates
it, modelled by the leading course-admin check against the URL queue's course.
Note the fourth publish: its topic uses `email`, the requester from the
session, while the fifth uses `entry.Email`, the entry owner. -/
def pinQueueEntryHandler (db : DB) (queue : Nat) (email : String) (entryId : Nat) :
    HandlerResult :=
  match getQueue db queue with
  | none => .error ⟨404, "That queue is hiding from me…make sure it exists!"⟩
  | some q =>
    if !courseAdmin db q.course email then
      .error ⟨403, "You\x27re not supposed to be here. :)"⟩
    else
      match getQueueEntry db entryId true with
      | none => .error ⟨404, "I\x27m not able to find that queue entry."⟩
      | some entry =>
        let entries := getActiveQueueEntriesForUser db queue entry.email
        if !entry.active ∧ entries.length > 0 then
          .error ⟨409, "That user is already on the queue. Pin their new entry!"⟩
        else
          match pinQueueEntry db entryId with
          | .error _ => .error ⟨500, "failed to pin queue entry"⟩
          | .ok db2 =>
            let pinnedEntry := { entry with pinned := true }
            .ok (db2,
              [⟨"STACK_REMOVE", .fullEntry pinnedEntry, .admin queue⟩,
               ⟨"ENTRY_CREATE", .fullEntry pinnedEntry, .admin queue⟩,
               ⟨"ENTRY_CREATE", .anonEntry pinnedEntry, .nonpriv queue⟩,
               ⟨"ENTRY_UPDATE", .fullEntry pinnedEntry, .emailTopic queue email⟩,
               ⟨"ENTRY_PINNED", .fullEntry pinnedEntry, .emailTopic queue entry.email⟩],
              204)

/-- `SetQueueEntryHelping` handler (course-admin gated by routing). -/
def setQueueEntryHelpingHandler (db : DB) (queue : Nat) (email firstName : String)
    (entryId : Nat) (helping : Bool) : HandlerResult :=
  match getQueue db queue with
  | none => .error ⟨404, "That queue is hiding from me…make sure it exists!"⟩
  | some q =>
    if !courseAdmin db q.course email then
      .error ⟨403, "You\x27re not supposed to be here. :)"⟩
    else
      match getQueueEntry db entryId true with
      | none => .error ⟨404, "I\x27m not able to find that queue entry."⟩
      | some entry =>
        let beingHelpedBy := if helping then " " ++ firstName else ""
        let db2 := setQueueEntryHelping db entryId beingHelpedBy
        let entry2 := { entry with helping := beingHelpedBy }
        .ok (db2,
          [⟨"ENTRY_UPDATE", .anonEntry entry2, .nonpriv queue⟩,
           ⟨"ENTRY_UPDATE", .fullEntry entry2, .admin queue⟩,
           ⟨"ENTRY_UPDATE", .fullEntry entry2, .emailTopic queue entry.email⟩,
           ⟨"ENTRY_HELPING", .fullEntry entry2, .emailTopic queue entry.email⟩],
          204)

/-- `SetNotHelped` handler (course-admin gated by routing). -/
def setNotHelpedHandler (db : DB) (queue : Nat) (email : String) (entryId : Nat) :
    HandlerResult :=
  match getQueue db queue with
  | none => .error ⟨404, "That queue is hiding from me…make sure it exists!"⟩
  | some q =>
    if !courseAdmin db q.course email then
      .error ⟨403, "You\x27re not supposed to be here. :)"⟩
    else
      match getQueueEntry db entryId true with
      | none => .error ⟨404, "I\x27m not able to find that queue entry."⟩
      | some entry =>
        let db2 := setHelpedStatus db entryId false
        let entry2 := { entry with helped := false }
        .ok (db2,
          [⟨"ENTRY_UPDATE", .removedEntryView entry2, .admin queue⟩,
           ⟨"NOT_HELPED", .nothing, .emailTopic queue entry.email⟩],
          204)

/-- `RandomizeQueueEntries` handler (course-admin gated by routing). -/
def randomizeQueueEntriesHandler (db : DB) (queue : Nat) (email : String)
    (rand : Nat → Int) : HandlerResult :=
  match getQueue db queue with
  | none => .error ⟨404, "That queue is hiding from me…make sure it exists!"⟩
  | some q =>
    if !courseAdmin db q.course email then
      .error ⟨403, "You\x27re not supposed to be here. :)"⟩
    else
      let db2 := randomizeQueueEntries db queue rand
      let entries := getQueueEntries db2 queue
      .ok (db2,
        ⟨"QUEUE_RANDOMIZE", .nothing, .generic queue⟩ ::
          entries.flatMap (fun e =>
            [⟨"ENTRY_UPDATE", .fullEntry e, .admin queue⟩,
             ⟨"ENTRY_UPDATE", .anonEntry e, .nonpriv queue⟩]),
        204)

/-- `ClearQueueEntries` handler (course-admin gated by routing). -/
def clearQueueEntriesHandler (db : DB) (env : Env) (queue : Nat) (email : String) :
    HandlerResult :=
  match getQueue db queue with
  | none => .error ⟨404, "That queue is hiding from me…make sure it exists!"⟩
  | some q =>
    if !courseAdmin db q.course email then
      .error ⟨403, "You\x27re not supposed to be here. :)"⟩
    else
      let db2 := clearQueueEntries db queue email env.now
      .ok (db2,
        [⟨"QUEUE_CLEAR", .strPayload email, .admin queue⟩,
         ⟨"QUEUE_CLEAR", .nothing, .nonpriv queue⟩],
        204)

/-- `UpdateQueueSchedule` handler: each submitted day string must be exactly
48 characters; nothing constrains the alphabet. -/
def updateQueueScheduleHandler (db : DB) (queue : Nat) (schedules : List String) :
    HandlerResult :=
  if schedules.any (fun s => s.length ≠ 48) then
    .error ⟨400, "Make sure your schedule is 48 characters long!"⟩
  else
    let db2 := { db with schedules := db.schedules.map (fun p =>
      if p.1 = queue ∧ p.2.1 < schedules.length then
        (p.1, p.2.1, schedules.getD p.2.1 p.2.2)
      else p) }
    .ok (db2, [⟨"REFRESH", .nothing, .generic queue⟩], 204)

/-! ## Request trace model (server/api/middleware.go `transaction`)

The middleware begins a transaction, runs the handler, and then commits when
the handler's error slot is nil, otherwise rolls back. Each handler is a
sequence of fallible steps (database statements and pure checks) followed, on
the all-success path, by its `s.ps.Pub` calls. A trace records the database
statements, the publications, and the final commit or rollback in program
order; the `outcomes` oracle says which fallible step succeeds. -/

inductive TraceAction where
  | dbStep (name : String)
  | publishStep (event : String)
  | commit
  | rollback
deriving DecidableEq, Repr

inductive HandlerStep where
  | dbCall (name : String)
  | checkCall (name : String)
deriving DecidableEq, Repr

structure OpModel where
  opName : String
  steps : List HandlerStep
  events : List String
deriving DecidableEq, Repr

/-- Runs the handler's fallible steps left to right: database calls appear in
the trace, pure checks do not; the first failing step ends the handler with a
non-nil error. Missing oracle entries default to success. -/
def runSteps : List HandlerStep → List Bool → List TraceAction × Bool
  | [], _ => ([], true)
  | s :: rest, outcomes =>
    let acts : List TraceAction :=
      match s with
      | .dbCall n => [.dbStep n]
      | .checkCall _ => []
    let ok := outcomes.headD true
    if ok then
      let r := runSteps rest outcomes.tail
      (acts ++ r.1, r.2)
    else (acts, false)

/-- The handler body: steps, then, only if every step succeeded, the
publications (handlers publish directly via `s.ps.Pub` before returning). -/
def handlerTrace (op : OpModel) (outcomes : List Bool) : List TraceAction × Bool :=
  let r := runSteps op.steps outcomes
  if r.2 then (r.1 ++ op.events.map TraceAction.publishStep, true) else (r.1, false)

/-- The `transaction` middleware around a handler: commit iff the handler's
error slot stayed nil, rollback otherwise, after the handler has returned. -/
def middlewareRun (op : OpModel) (outcomes : List Bool) : List TraceAction :=
  let r := handlerTrace op outcomes
  r.1 ++ [if r.2 then .commit else .rollback]

/-- signup (`AddQueueEntry` handler). -/
def signupOp : OpModel :=
  { opName := "signup",
    steps := [.dbCall "GetActiveQueueEntriesForUser", .checkCall "noExistingEntry",
      .dbCall "CanAddEntry", .checkCall "decodeBody", .checkCall "requiredFields",
      .checkCall "locationLength", .dbCall "GetQueueConfiguration",
      .checkCall "unmarshalPrompts", .checkCall "validateDescription",
      .dbCall "GetEntryPriority", .dbCall "AddQueueEntry"],
    events := ["ENTRY_CREATE", "ENTRY_CREATE", "ENTRY_UPDATE"] }

/-- update (`UpdateQueueEntry` handler). -/
def updateOp : OpModel :=
  { opName := "update",
    steps := [.checkCall "parseEntryId", .dbCall "GetQueueEntry",
      .checkCall "ownerOnly", .checkCall "decodeBody", .checkCall "requiredFields",
      .checkCall "locationLength", .dbCall "GetQueueConfiguration",
      .checkCall "unmarshalPrompts", .checkCall "validateDescription",
      .dbCall "UpdateQueueEntry"],
    events := ["ENTRY_UPDATE", "ENTRY_UPDATE"] }

/-- remove (`RemoveQueueEntry` handler). -/
def removeOp : OpModel :=
  { opName := "remove",
    steps := [.checkCall "parseEntryId", .dbCall "CanRemoveQueueEntry",
      .dbCall "RemoveQueueEntry"],
    events := ["ENTRY_REMOVE", "ENTRY_REMOVE"] }

/-- pin (`PinQueueEntry` handler). -/
def pinOp : OpModel :=
  { opName := "pin",
    steps := [.checkCall "parseEntryId", .dbCall "GetQueueEntry",
      .dbCall "GetActiveQueueEntriesForUser", .checkCall "noActiveDuplicate",
      .dbCall "PinQueueEntry"],
    events := ["STACK_REMOVE", "ENTRY_CREATE", "ENTRY_CREATE", "ENTRY_UPDATE",
      "ENTRY_PINNED"] }

/-- set_helping (`SetQueueEntryHelping` handler). -/
def setHelpingOp : OpModel :=
  { opName := "set_helping",
    steps := [.checkCall "helpingParam", .checkCall "parseEntryId",
      .dbCall "GetQueueEntry", .dbCall "SetQueueEntryHelping"],
    events := ["ENTRY_UPDATE", "ENTRY_UPDATE", "ENTRY_UPDATE", "ENTRY_HELPING"] }

/-- set_not_helped (`SetNotHelped` handler). -/
def setNotHelpedOp : OpModel :=
  { opName := "set_not_helped",
    steps := [.checkCall "parseEntryId", .dbCall "GetQueueEntry",
      .dbCall "SetHelpedStatus"],
    events := ["ENTRY_UPDATE", "NOT_HELPED"] }

/-- randomize (`RandomizeQueueEntries` handler); `n` active entries are
re-listed afterwards and each produces two updates. -/
def randomizeOp (n : Nat) : OpModel :=
  { opName := "randomize",
    steps := [.dbCall "RandomizeQueueEntries", .dbCall "GetQueueEntries"],
    events := "QUEUE_RANDOMIZE" ::
      (List.replicate n ["ENTRY_UPDATE", "ENTRY_UPDATE"]).flatten }

/-- clear (`ClearQueueEntries` handler). -/
def clearOp : OpModel :=
  { opName := "clear",
    steps := [.dbCall "ClearQueueEntries"],
    events := ["QUEUE_CLEAR", "QUEUE_CLEAR"] }

/-- set_open (`UpdateQueueOpenStatus` handler). -/
def setOpenOp : OpModel :=
  { opName := "set_open",
    steps := [.checkCall "openParam", .dbCall "UpdateQueueOpenStatus"],
    events := ["QUEUE_OPEN"] }

/-- add_announcement (`AddQueueAnnouncement` handler). -/
def addAnnouncementOp : OpModel :=
  { opName := "add_announcement",
    steps := [.checkCall "decodeBody", .checkCall "requiredFields",
      .dbCall "AddQueueAnnouncement"],
    events := ["ANNOUNCEMENT_CREATE"] }

/-- remove_announcement (`RemoveQueueAnnouncement` handler). -/
def removeAnnouncementOp : OpModel :=
  { opName := "remove_announcement",
    steps := [.checkCall "parseAnnouncementId", .dbCall "RemoveQueueAnnouncement"],
    events := ["ANNOUNCEMENT_DELETE"] }

/-- configuration update (`UpdateQueueConfiguration` handler). -/
def updateConfigurationOp : OpModel :=
  { opName := "update_configuration",
    steps := [.checkCall "decodeBody", .checkCall "unmarshalPrompts",
      .checkCall "noDuplicatePrompts", .dbCall "UpdateQueueConfiguration"],
    events := ["REFRESH"] }

/-- schedule update (`UpdateQueueSchedule` handler). -/
def updateScheduleOp : OpModel :=
  { opName := "update_schedule",
    steps := [.checkCall "decodeBody", .checkCall "scheduleLengths",
      .dbCall "UpdateQueueSchedule"],
    events := ["REFRESH"] }

/-- send_message (`SendMessage` handler): no database statement; one publish,
to the generic topic on broadcast, else to the receiver's topic. -/
def sendMessageOp : OpModel :=
  { opName := "send_message",
    steps := [.checkCall "decodeBody", .checkCall "requiredFields"],
    events := ["MESSAGE_CREATE"] }

/-- Every mutation operation of §4.3, with the randomize fan-out size `n`. -/
def mutationOps (n : Nat) : List OpModel :=
  [signupOp, updateOp, removeOp, pinOp, setHelpingOp, setNotHelpedOp,
   randomizeOp n, clearOp, setOpenOp, addAnnouncementOp, removeAnnouncementOp,
   updateConfigurationOp, updateScheduleOp, sendMessageOp]

/-- The spec's discipline at one trace: every publication is preceded by an
earlier commit. -/
def publishOnlyAfterCommit (t : List TraceAction) : Prop :=
  ∀ i : Fin t.length, (∃ e, t.get i = .publishStep e) →
    ∃ j : Fin t.length, j < i ∧ t.get j = .commit

/-! ## Reachable states (§4.3 operation sequences) -/

/-- One §4.3 queue-state operation, with the request context it runs under
(actor identity from the session, URL queue id, wall clock). -/
inductive Op where
  | signup (env : Env) (queue : Nat) (email name description location : String)
  | update (queue : Nat) (email name : String) (entryId : Nat)
      (description location : String)
  | remove (env : Env) (queue : Nat) (email : String) (entryId : Nat)
  | pin (queue : Nat) (email : String) (entryId : Nat)
  | setHelping (queue : Nat) (email firstName : String) (entryId : Nat)
      (helping : Bool)
  | setNotHelped (queue : Nat) (email : String) (entryId : Nat)
  | randomize (queue : Nat) (email : String) (rand : Nat → Int)
  | clear (env : Env) (queue : Nat) (email : String)

/-- Runs one operation's handler; a failed handler rolls its transaction back,
leaving the store unchanged (§4.7). -/
def stepOp (db : DB) (op : Op) : DB :=
  let result : HandlerResult :=
    match op with
    | .signup env queue email name description location =>
      addQueueEntryHandler db env queue email name description location
    | .update queue email name entryId description location =>
      updateQueueEntryHandler db queue email name entryId description location
    | .remove env queue email entryId =>
      removeQueueEntryHandler db env queue email entryId
    | .pin queue email entryId =>
      pinQueueEntryHandler db queue email entryId
    | .setHelping queue email firstName entryId helping =>
      setQueueEntryHelpingHandler db queue email firstName entryId helping
    | .setNotHelped queue email entryId =>
      setNotHelpedHandler db queue email entryId
    | .randomize queue email rand =>
      randomizeQueueEntriesHandler db queue email rand
    | .clear env queue email =>
      clearQueueEntriesHandler db env queue email
  match result with
  | .ok (db2, _, _) => db2
  | .error _ => db

/-- States reachable from an empty queue state (no entries yet; courses,
queues, rosters and admins are set up by out-of-scope operations) by any
sequence of §4.3 operations. -/
inductive Reach : DB → Prop where
  | init (db : DB) (h : db.entries = []) : Reach db
  | step (db : DB) (op : Op) (h : Reach db) : Reach (stepOp db op)

/-- At most one active entry per (queue, email): two distinct rows are never
both active with the same key. -/
def ActiveUnique (entries : List QueueEntry) : Prop :=
  ∀ e₁ ∈ entries, ∀ e₂ ∈ entries, e₁ ≠ e₂ → e₁.active = true → e₂.active = true →
    ¬(e₁.queue = e₂.queue ∧ e₁.email = e₂.email)

def PinnedActive (entries : List QueueEntry) : Prop :=
  ∀ e ∈ entries, e.pinned = true → e.active = true

def HelpingActive (entries : List QueueEntry) : Prop :=
  ∀ e ∈ entries, e.helping ≠ "" → e.active = true

/-- Auxiliary invariant: ids are below the id counter and pairwise distinct. -/
def IdsFresh (db : DB) : Prop :=
  (∀ e ∈ db.entries, e.id < db.nextEntryId) ∧
    (db.entries.map QueueEntry.id).Nodup

def QueueInvariant (db : DB) : Prop :=
  ActiveUnique db.entries ∧ PinnedActive db.entries ∧ IdsFresh db

lemma activeUnique_map_of {l : List QueueEntry} {f : QueueEntry → QueueEntry}
    (hq : ∀ e ∈ l, (f e).queue = e.queue) (he : ∀ e ∈ l, (f e).email = e.email)
    (hact : ∀ e ∈ l, (f e).active = true → e.active = true)
    (h : ActiveUnique l) : ActiveUnique (l.map f) := by
  intro x hx y hy hne hax hay hkey
  obtain ⟨a, ha, rfl⟩ := List.mem_map.mp hx
  obtain ⟨b, hb, rfl⟩ := List.mem_map.mp hy
  have hab : a ≠ b := fun hh => hne (by rw [hh])
  exact h a ha b hb hab (hact a ha hax) (hact b hb hay)
    ⟨by rw [← hq a ha, ← hq b hb]; exact hkey.1,
     by rw [← he a ha, ← he b hb]; exact hkey.2⟩

lemma pinnedActive_map_of {l : List QueueEntry} {f : QueueEntry → QueueEntry}
    (hp : ∀ e ∈ l, (f e).pinned = true → (f e).active = true) :
    PinnedActive (l.map f) := by
  intro x hx
  obtain ⟨a, ha, rfl⟩ := List.mem_map.mp hx
  exact hp a ha

lemma idsFresh_map {db db2 : DB} {f : QueueEntry → QueueEntry}
    (hent : db2.entries = db.entries.map f) (hnext : db2.nextEntryId = db.nextEntryId)
    (hid : ∀ e ∈ db.entries, (f e).id = e.id) (h : IdsFresh db) : IdsFresh db2 := by
  obtain ⟨h1, h2⟩ := h
  constructor
  · intro e he
    rw [hent] at he
    obtain ⟨a, ha, rfl⟩ := List.mem_map.mp he
    rw [hid a ha, hnext]
    exact h1 a ha
  · rw [hent, List.map_map]
    have heq : db.entries.map (QueueEntry.id ∘ f) = db.entries.map QueueEntry.id :=
      List.map_congr_left (fun a ha => hid a ha)
    rw [heq]
    exact h2

/-- A pointwise entry rewrite that keeps id/queue/email, never activates a
row, and respects pinned ⇒ active, preserves the queue invariant. -/
lemma mapUpdate_preserves {db : DB} (f : QueueEntry → QueueEntry)
    (hid : ∀ e ∈ db.entries, (f e).id = e.id)
    (hq : ∀ e ∈ db.entries, (f e).queue = e.queue)
    (he : ∀ e ∈ db.entries, (f e).email = e.email)
    (hact : ∀ e ∈ db.entries, (f e).active = true → e.active = true)
    (hpin : ∀ e ∈ db.entries, (f e).pinned = true → (f e).active = true)
    (h : QueueInvariant db) :
    QueueInvariant { db with entries := db.entries.map f } := by
  refine ⟨activeUnique_map_of hq he hact h.1, pinnedActive_map_of hpin, ?_⟩
  exact idsFresh_map rfl rfl hid h.2.2

lemma activeUnique_append {l : List QueueEntry} {c : QueueEntry}
    (h : ActiveUnique l)
    (hc : ∀ e ∈ l, e.active = true → ¬(e.queue = c.queue ∧ e.email = c.email)) :
    ActiveUnique (l ++ [c]) := by
  intro x hx y hy hne hax hay hkey
  rcases List.mem_append.mp hx with hx' | hx' <;>
    rcases List.mem_append.mp hy with hy' | hy'
  · exact h x hx' y hy' hne hax hay hkey
  · have : y = c := List.mem_singleton.mp hy'
    subst this
    exact hc x hx' hax hkey
  · have : x = c := List.mem_singleton.mp hx'
    subst this
    exact hc y hy' hay ⟨hkey.1.symm, hkey.2.symm⟩
  · exact hne ((List.mem_singleton.mp hx').trans (List.mem_singleton.mp hy').symm)

lemma addQueueEntry_preserves {db : DB} {c : QueueEntry} {db2 : DB} {e' : QueueEntry}
    (heq : addQueueEntry db c = .ok (db2, e')) (h : QueueInvariant db) :
    QueueInvariant db2 := by
  obtain ⟨h1, h2, h3a, h3b⟩ := h
  unfold addQueueEntry at heq
  split at heq
  · exact absurd heq (by simp)
  next hconf =>
    simp only [Except.ok.injEq, Prod.mk.injEq] at heq
    obtain ⟨hdb, -⟩ := heq
    subst hdb
    have hnc : ∀ e ∈ db.entries, e.active = true →
        ¬(e.queue = c.queue ∧ e.email = c.email) := by
      intro e he hact hkey
      apply hconf
      unfold activeConflict
      refine List.any_eq_true.mpr ⟨e, he, ?_⟩
      have hne : e.id ≠ db.nextEntryId := Nat.ne_of_lt (h3a e he)
      simp [hne, hact, hkey.1, hkey.2]
    refine ⟨activeUnique_append h1 (by simpa using hnc), ?_, ?_, ?_⟩
    · intro e he hp
      rcases List.mem_append.mp he with he' | he'
      · exact h2 e he' hp
      · simp_all [List.mem_singleton.mp he']
    · intro e he
      rcases List.mem_append.mp he with he' | he'
      · exact Nat.lt_succ_of_lt (h3a e he')
      · rw [List.mem_singleton.mp he']
        exact Nat.lt_succ_self _
    · rw [List.map_append]
      rw [List.nodup_append]
      refine ⟨h3b, List.nodup_singleton _, ?_⟩
      intro x hx hx'
      obtain ⟨a, ha, rfl⟩ := List.mem_map.mp hx
      have : a.id = db.nextEntryId := by simpa using hx'
      exact absurd this (Nat.ne_of_lt (h3a a ha))

lemma pinQueueEntry_preserves {db : DB} {i : Nat} {db2 : DB}
    (heq : pinQueueEntry db i = .ok db2) (h : QueueInvariant db) :
    QueueInvariant db2 := by
  obtain ⟨h1, h2, h3a, h3b⟩ := h
  unfold pinQueueEntry at heq
  split at heq
  next hfind =>
    simp only [Except.ok.injEq] at heq
    subst heq
    exact ⟨h1, h2, h3a, h3b⟩
  next target hfind =>
    split at heq
    · exact absurd heq (by simp)
    next hconf =>
      simp only [Except.ok.injEq] at heq
      subst heq
      have htmem : target ∈ db.entries := List.mem_of_find?_eq_some hfind
      have htid : target.id = i := by
        have := List.find?_some hfind
        simpa using this
      have hinj := List.inj_on_of_nodup_map h3b
      have hnoOther : ∀ b ∈ db.entries, b.id ≠ i → b.active = true →
          ¬(b.queue = target.queue ∧ b.email = target.email) := by
        intro b hb hbid hbact hkey
        apply hconf
        unfold activeConflict
        refine List.any_eq_true.mpr ⟨b, hb, ?_⟩
        simp [hbid, hbact, hkey.1, hkey.2]
      constructor
      · intro x hx y hy hne hax hay hkey
        obtain ⟨a, ha, rfl⟩ := List.mem_map.mp hx
        obtain ⟨b, hb, rfl⟩ := List.mem_map.mp hy
        have hab : a ≠ b := fun hh => hne (by rw [hh])
        by_cases hai : a.id = i <;> by_cases hbi : b.id = i
        · exact hab (hinj ha hb (hai.trans hbi.symm))
        · have haT : a = target := hinj ha htmem (hai.trans htid.symm)
          simp only [if_pos hai, if_neg hbi] at hay hkey
          refine hnoOther b hb hbi hay ?_
          rw [← haT]
          exact ⟨hkey.1.symm, hkey.2.symm⟩
        · have hbT : b = target := hinj hb htmem (hbi.trans htid.symm)
          simp only [if_neg hai, if_pos hbi] at hax hkey
          refine hnoOther a ha hai hax ?_
          rw [← hbT]
          exact hkey
        · simp only [if_neg hai, if_neg hbi] at hax hay hkey
          exact h1 a ha b hb hab hax hay hkey
      constructor
      · refine pinnedActive_map_of ?_
        intro e he
        by_cases hei : e.id = i
        · simp [hei]
        · simp only [if_neg hei]
          exact h2 e he
      · refine idsFresh_map rfl rfl ?_ ⟨h3a, h3b⟩
        intro e _
        by_cases hei : e.id = i <;> simp [hei]


lemma removeQueueEntry_preserves {db : DB} {i : Nat} {r : String} {n : Int}
    {db2 : DB} {e' : QueueEntry}
    (heq : removeQueueEntry db i r n = some (db2, e')) (h : QueueInvariant db) :
    QueueInvariant db2 := by
  unfold removeQueueEntry at heq
  split at heq
  · exact absurd heq (by simp)
  next target hfind =>
    simp only [Option.some.injEq, Prod.mk.injEq] at heq
    obtain ⟨hdb, -⟩ := heq
    subst hdb
    have htmem : target ∈ db.entries := List.mem_of_find?_eq_some hfind
    have htid : target.id = i := by
      have := List.find?_some hfind
      simp only [Bool.and_eq_true, beq_iff_eq] at this
      exact this.1
    have hinj := List.inj_on_of_nodup_map h.2.2.2
    have hTeq : ∀ e ∈ db.entries, e.id = i ∧ e.active = true → e = target := by
      intro e he hc
      exact hinj he htmem (hc.1.trans htid.symm)
    refine mapUpdate_preserves _ ?_ ?_ ?_ ?_ ?_ h
    · intro e he
      by_cases hc : e.id = i ∧ e.active = true
      · rw [if_pos hc, ← hTeq e he hc]
      · rw [if_neg hc]
    · intro e he
      by_cases hc : e.id = i ∧ e.active = true
      · rw [if_pos hc, ← hTeq e he hc]
      · rw [if_neg hc]
    · intro e he
      by_cases hc : e.id = i ∧ e.active = true
      · rw [if_pos hc, ← hTeq e he hc]
      · rw [if_neg hc]
    · intro e _ ha
      by_cases hc : e.id = i ∧ e.active = true
      · rw [if_pos hc] at ha
        exact absurd ha (by simp)
      · rwa [if_neg hc] at ha
    · intro e he hp
      by_cases hc : e.id = i ∧ e.active = true
      · rw [if_pos hc] at hp
        exact absurd hp (by simp)
      · rw [if_neg hc] at hp ⊢
        exact h.2.1 e he hp

lemma updateQueueEntryRow_preserves {db : DB} {i : Nat} {e : QueueEntry}
    (h : QueueInvariant db) : QueueInvariant (updateQueueEntryRow db i e) := by
  unfold updateQueueEntryRow
  refine mapUpdate_preserves _ ?_ ?_ ?_ ?_ ?_ h
  · intro x _; by_cases hc : x.id = i ∧ x.active = true <;> simp [hc]
  · intro x _; by_cases hc : x.id = i ∧ x.active = true <;> simp [hc]
  · intro x _; by_cases hc : x.id = i ∧ x.active = true <;> simp [hc]
  · intro x _ ha
    by_cases hc : x.id = i ∧ x.active = true
    · rw [if_pos hc] at ha
      exact ha
    · rwa [if_neg hc] at ha
  · intro x hx hp
    by_cases hc : x.id = i ∧ x.active = true
    · rw [if_pos hc] at hp ⊢
      exact h.2.1 x hx hp
    · rw [if_neg hc] at hp ⊢
      exact h.2.1 x hx hp

lemma setQueueEntryHelping_preserves {db : DB} {i : Nat} {s : String}
    (h : QueueInvariant db) : QueueInvariant (setQueueEntryHelping db i s) := by
  unfold setQueueEntryHelping
  refine mapUpdate_preserves _ ?_ ?_ ?_ ?_ ?_ h
  · intro x _; by_cases hc : x.id = i <;> simp [hc]
  · intro x _; by_cases hc : x.id = i <;> simp [hc]
  · intro x _; by_cases hc : x.id = i <;> simp [hc]
  · intro x _ ha
    by_cases hc : x.id = i
    · rw [if_pos hc] at ha
      exact ha
    · rwa [if_neg hc] at ha
  · intro x hx hp
    by_cases hc : x.id = i
    · rw [if_pos hc] at hp ⊢
      exact h.2.1 x hx hp
    · rw [if_neg hc] at hp ⊢
      exact h.2.1 x hx hp

lemma setHelpedStatus_preserves {db : DB} {i : Nat} {b : Bool}
    (h : QueueInvariant db) : QueueInvariant (setHelpedStatus db i b) := by
  unfold setHelpedStatus
  refine mapUpdate_preserves _ ?_ ?_ ?_ ?_ ?_ h
  · intro x _; by_cases hc : x.id = i <;> simp [hc]
  · intro x _; by_cases hc : x.id = i <;> simp [hc]
  · intro x _; by_cases hc : x.id = i <;> simp [hc]
  · intro x _ ha
    by_cases hc : x.id = i
    · rw [if_pos hc] at ha
      exact ha
    · rwa [if_neg hc] at ha
  · intro x hx hp
    by_cases hc : x.id = i
    · rw [if_pos hc] at hp ⊢
      exact h.2.1 x hx hp
    · rw [if_neg hc] at hp ⊢
      exact h.2.1 x hx hp

lemma randomizeQueueEntries_preserves {db : DB} {q : Nat} {rand : Nat → Int}
    (h : QueueInvariant db) : QueueInvariant (randomizeQueueEntries db q rand) := by
  unfold randomizeQueueEntries
  refine mapUpdate_preserves _ ?_ ?_ ?_ ?_ ?_ h
  · intro x _; by_cases hc : x.active = true ∧ x.queue = q <;> simp [hc]
  · intro x _; by_cases hc : x.active = true ∧ x.queue = q <;> simp [hc]
  · intro x _; by_cases hc : x.active = true ∧ x.queue = q <;> simp [hc]
  · intro x _ ha
    by_cases hc : x.active = true ∧ x.queue = q
    · rw [if_pos hc] at ha
      exact ha
    · rwa [if_neg hc] at ha
  · intro x hx hp
    by_cases hc : x.active = true ∧ x.queue = q
    · rw [if_pos hc] at hp ⊢
      exact h.2.1 x hx hp
    · rw [if_neg hc] at hp ⊢
      exact h.2.1 x hx hp

lemma clearQueueEntries_preserves {db : DB} {q : Nat} {r : String} {n : Int}
    (h : QueueInvariant db) : QueueInvariant (clearQueueEntries db q r n) := by
  unfold clearQueueEntries
  refine mapUpdate_preserves _ ?_ ?_ ?_ ?_ ?_ h
  · intro x _; by_cases hc : x.active = true ∧ x.queue = q <;> simp [hc]
  · intro x _; by_cases hc : x.active = true ∧ x.queue = q <;> simp [hc]
  · intro x _; by_cases hc : x.active = true ∧ x.queue = q <;> simp [hc]
  · intro x _ ha
    by_cases hc : x.active = true ∧ x.queue = q
    · rw [if_pos hc] at ha
      exact absurd ha (by simp)
    · rwa [if_neg hc] at ha
  · intro x hx hp
    by_cases hc : x.active = true ∧ x.queue = q
    · rw [if_pos hc] at hp
      exact absurd hp (by simp)
    · rw [if_neg hc] at hp ⊢
      exact h.2.1 x hx hp

lemma addQueueEntryHandler_preserves {db : DB} {env : Env} {q : Nat}
    {em nm d loc : String} {db2 : DB} {evs : List Event} {st : Nat}
    (heq : addQueueEntryHandler db env q em nm d loc = .ok (db2, evs, st))
    (h : QueueInvariant db) : QueueInvariant db2 := by
  unfold addQueueEntryHandler at heq
  repeat' first
  | split at heq
  | dsimp only at heq
  all_goals first
  | (simp only [Except.ok.injEq, Prod.mk.injEq] at heq
     obtain ⟨hdb, -, -⟩ := heq
     subst hdb
     exact addQueueEntry_preserves (by assumption) h)
  | exact absurd heq (by simp)

lemma updateQueueEntryHandler_preserves {db : DB} {q : Nat} {em nm : String}
    {i : Nat} {d loc : String} {db2 : DB} {evs : List Event} {st : Nat}
    (heq : updateQueueEntryHandler db q em nm i d loc = .ok (db2, evs, st))
    (h : QueueInvariant db) : QueueInvariant db2 := by
  unfold updateQueueEntryHandler at heq
  repeat' first
  | split at heq
  | dsimp only at heq
  all_goals first
  | (simp only [Except.ok.injEq, Prod.mk.injEq] at heq
     obtain ⟨hdb, -, -⟩ := heq
     subst hdb
     exact updateQueueEntryRow_preserves h)
  | exact absurd heq (by simp)

lemma removeQueueEntryHandler_preserves {db : DB} {env : Env} {q : Nat}
    {em : String} {i : Nat} {db2 : DB} {evs : List Event} {st : Nat}
    (heq : removeQueueEntryHandler db env q em i = .ok (db2, evs, st))
    (h : QueueInvariant db) : QueueInvariant db2 := by
  unfold removeQueueEntryHandler at heq
  repeat' first
  | split at heq
  | dsimp only at heq
  all_goals first
  | (simp only [Except.ok.injEq, Prod.mk.injEq] at heq
     obtain ⟨hdb, -, -⟩ := heq
     subst hdb
     exact removeQueueEntry_preserves (by assumption) h)
  | exact absurd heq (by simp)

lemma pinQueueEntryHandler_preserves {db : DB} {q : Nat} {em : String}
    {i : Nat} {db2 : DB} {evs : List Event} {st : Nat}
    (heq : pinQueueEntryHandler db q em i = .ok (db2, evs, st))
    (h : QueueInvariant db) : QueueInvariant db2 := by
  unfold pinQueueEntryHandler at heq
  repeat' first
  | split at heq
  | dsimp only at heq
  all_goals first
  | (simp only [Except.ok.injEq, Prod.mk.injEq] at heq
     obtain ⟨hdb, -, -⟩ := heq
     subst hdb
     exact pinQueueEntry_preserves (by assumption) h)
  | exact absurd heq (by simp)

lemma setQueueEntryHelpingHandler_preserves {db : DB} {q : Nat}
    {em fn : String} {i : Nat} {hp : Bool} {db2 : DB} {evs : List Event} {st : Nat}
    (heq : setQueueEntryHelpingHandler db q em fn i hp = .ok (db2, evs, st))
    (h : QueueInvariant db) : QueueInvariant db2 := by
  unfold setQueueEntryHelpingHandler at heq
  repeat' first
  | split at heq
  | dsimp only at heq
  all_goals first
  | (simp only [Except.ok.injEq, Prod.mk.injEq] at heq
     obtain ⟨hdb, -, -⟩ := heq
     subst hdb
     exact setQueueEntryHelping_preserves h)
  | exact absurd heq (by simp)

lemma setNotHelpedHandler_preserves {db : DB} {q : Nat} {em : String}
    {i : Nat} {db2 : DB} {evs : List Event} {st : Nat}
    (heq : setNotHelpedHandler db q em i = .ok (db2, evs, st))
    (h : QueueInvariant db) : QueueInvariant db2 := by
  unfold setNotHelpedHandler at heq
  repeat' first
  | split at heq
  | dsimp only at heq
  all_goals first
  | (simp only [Except.ok.injEq, Prod.mk.injEq] at heq
     obtain ⟨hdb, -, -⟩ := heq
     subst hdb
     exact setHelpedStatus_preserves h)
  | exact absurd heq (by simp)

lemma randomizeQueueEntriesHandler_preserves {db : DB} {q : Nat} {em : String}
    {rand : Nat → Int} {db2 : DB} {evs : List Event} {st : Nat}
    (heq : randomizeQueueEntriesHandler db q em rand = .ok (db2, evs, st))
    (h : QueueInvariant db) : QueueInvariant db2 := by
  unfold randomizeQueueEntriesHandler at heq
  repeat' first
  | split at heq
  | dsimp only at heq
  all_goals first
  | (simp only [Except.ok.injEq, Prod.mk.injEq] at heq
     obtain ⟨hdb, -, -⟩ := heq
     subst hdb
     exact randomizeQueueEntries_preserves h)
  | exact absurd heq (by simp)

lemma clearQueueEntriesHandler_preserves {db : DB} {env : Env} {q : Nat}
    {em : String} {db2 : DB} {evs : List Event} {st : Nat}
    (heq : clearQueueEntriesHandler db env q em = .ok (db2, evs, st))
    (h : QueueInvariant db) : QueueInvariant db2 := by
  unfold clearQueueEntriesHandler at heq
  repeat' first
  | split at heq
  | dsimp only at heq
  all_goals first
  | (simp only [Except.ok.injEq, Prod.mk.injEq] at heq
     obtain ⟨hdb, -, -⟩ := heq
     subst hdb
     exact clearQueueEntries_preserves h)
  | exact absurd heq (by simp)

lemma stepOp_preserves (db : DB) (op : Op) (h : QueueInvariant db) :
    QueueInvariant (stepOp db op) := by
  unfold stepOp
  cases op <;> dsimp only <;> split
  case signup.h_1 => exact addQueueEntryHandler_preserves (by assumption) h
  case signup.h_2 => exact h
  case update.h_1 => exact updateQueueEntryHandler_preserves (by assumption) h
  case update.h_2 => exact h
  case remove.h_1 => exact removeQueueEntryHandler_preserves (by assumption) h
  case remove.h_2 => exact h
  case pin.h_1 => exact pinQueueEntryHandler_preserves (by assumption) h
  case pin.h_2 => exact h
  case setHelping.h_1 => exact setQueueEntryHelpingHandler_preserves (by assumption) h
  case setHelping.h_2 => exact h
  case setNotHelped.h_1 => exact setNotHelpedHandler_preserves (by assumption) h
  case setNotHelped.h_2 => exact h
  case randomize.h_1 => exact randomizeQueueEntriesHandler_preserves (by assumption) h
  case randomize.h_2 => exact h
  case clear.h_1 => exact clearQueueEntriesHandler_preserves (by assumption) h
  case clear.h_2 => exact h

lemma reach_invariant {db : DB} (h : Reach db) : QueueInvariant db := by
  induction h with
  | init db h0 =>
    refine ⟨?_, ?_, ?_, ?_⟩ <;> simp [ActiveUnique, PinnedActive, IdsFresh, h0]
  | step db op _ ih => exact stepOp_preserves db op ih

/-! ## Concrete scenario used by several claims: one queue, one admin. -/

def cfgOpen : QueueConfiguration :=
  { enableLocationField := false, preventUnregistered := false,
    preventGroups := false, preventGroupsBoost := false, prioritizeNew := false,
    cooldown := 0, virtualMode := false, scheduled := false, prompts := "[]",
    manualOpen := true }

def env0 : Env := { now := 0, day := 0, localMinutes := 0, firstIdOfDay := 0 }

/-- Empty queue state: queue 1 on course 1 with admin ta@x, no entries. -/
def db0 : DB :=
  { queues := [{ id := 1, course := 1, active := true }],
    configs := [(1, cfgOpen)],
    schedules := [(1, 0, String.mk (List.replicate 48 'o'))],
    roster := [], groups := [], courseAdmins := [(1, "ta@x")],
    entries := [], nextEntryId := 5 }

def c2op1 : Op := .signup env0 1 "s@x" "Sam" "help me" ""
def c2op2 : Op := .remove env0 1 "ta@x" 5
def c2op3 : Op := .setHelping 1 "ta@x" "Ta" 5 true

/-- The state after signup, helped removal, then set_helping(on) on the
archived entry. -/
def c2cexDB : DB := stepOp (stepOp (stepOp db0 c2op1) c2op2) c2op3

example : c2cexDB.entries.map (fun e => (e.id, e.active, e.helping)) =
    [(5, false, " Ta")] := by rfl

/-- C2, counterexample: the state reached from the empty state by
signup(s@x), remove by ta@x, then set_helping(on) on the now-archived entry
is reachable, yet violates the claimed invariant `helping ≠ "" ⇒ active`:
`SetQueueEntryHelping` updates `helping` with no `active` guard and the
handler fetches the entry with `allowRemoved = true`. -/
theorem c2_helping_active_cex : Reach c2cexDB ∧ ¬ HelpingActive c2cexDB.entries := by
  constructor
  · exact Reach.step _ c2op3 (Reach.step _ c2op2 (Reach.step _ c2op1 (Reach.init db0 rfl)))
  · intro hH
    have hl : c2cexDB.entries =
        [⟨5, 1, "s@x", "Sam", "", "help me", 0, false, " Ta", true, false,
          some 0, some "ta@x"⟩] := by rfl
    rw [hl] at hH
    have := hH _ (List.mem_singleton.mpr rfl)
    simp at this

/-- C2 (amended): for every state reachable from the empty state by any
sequence of the §4.3 operations, each (queue, email) pair has at most one
active entry and every pinned entry is active. (The third claimed invariant,
`helping ≠ "" ⇒ active`, fails on the code: see the counterexample.) -/
theorem c2_reachable_invariants (db : DB) (h : Reach db) :
    ActiveUnique db.entries ∧ PinnedActive db.entries :=
  ⟨(reach_invariant h).1, (reach_invariant h).2.1⟩

/-- C2 witness: the amended invariants at a concrete reachable state. -/
theorem c2_reachable_invariants_witness :
    ActiveUnique c2cexDB.entries ∧ PinnedActive c2cexDB.entries :=
  c2_reachable_invariants c2cexDB
    (Reach.step _ c2op3 (Reach.step _ c2op2 (Reach.step _ c2op1 (Reach.init db0 rfl))))

/-! ## C4: display order -/

def beingHelped (e : QueueEntry) : Bool := e.helping ≠ ""

/-- The display order as the spec words it (§4.2): pinned entries first; then
entries currently being helped; then descending priority; then ascending id.
This is the claim's order, written alongside the code's `entryLe` for
comparison. -/
def specSortLe (a b : QueueEntry) : Prop :=
  (a.pinned = true ∧ b.pinned = false) ∨
    (a.pinned = b.pinned ∧
      ((beingHelped a = true ∧ beingHelped b = false) ∨
        (beingHelped a = beingHelped b ∧
          (b.priority < a.priority ∨ (a.priority = b.priority ∧ a.id ≤ b.id)))))

instance : DecidableRel specSortLe := fun a b => by
  unfold specSortLe; infer_instance

def c4e1 : QueueEntry :=
  ⟨1, 1, "a@x", "A", "", "q1", 0, false, " staff", false, true, none, none⟩

def c4e2 : QueueEntry :=
  ⟨2, 1, "b@x", "B", "", "q2", 5, false, "", false, true, none, none⟩

def c4db : DB := { db0 with entries := [c4e1, c4e2], nextEntryId := 3 }

/-- C4, counterexample: with an entry being helped at priority 0 and an
unhelped entry at priority 5, the display list puts the priority-5 entry
first (`ORDER BY pinned DESC, priority DESC, id` has no helping key), so the
returned list is not sorted by the claimed order, which puts the helped entry
first. -/
theorem c4_sort_cex :
    getQueueEntries c4db 1 = [c4e2, c4e1] ∧
    specSortLe c4e1 c4e2 ∧
    ¬ List.Sorted specSortLe (getQueueEntries c4db 1) := by
  refine ⟨by rfl, by decide, ?_⟩
  rw [show getQueueEntries c4db 1 = [c4e2, c4e1] from rfl]
  intro h
  have := List.rel_of_sorted_cons h c4e1 (List.mem_singleton.mpr rfl)
  revert this
  decide

/-- C4 (amended): for every queue, the list of active entries returned for
display is a permutation of the queue's active entries sorted by the total
order: pinned entries first; then descending priority; then ascending id.
(`helping` does not participate in the order.) -/
theorem c4_display_sorted (db : DB) (q : Nat) :
    List.Sorted entryLe (getQueueEntries db q) ∧
    List.Perm (getQueueEntries db q)
      (db.entries.filter (fun e => e.queue == q && e.active)) :=
  ⟨List.sorted_insertionSort entryLe _, List.perm_insertionSort entryLe _⟩

/-! ## C5: clear -/

/-- The row produced by `ClearQueueEntries` for a formerly active entry:
archived with the remover and time recorded, unpinned, `helped = false`, and
`helping` untouched. -/
def clearedRow (e : QueueEntry) (remover : String) (now : Int) : QueueEntry :=
  { e with active := false, removedAt := some now, removedBy := some remover, pinned := false, helped := false }

/-- C5 (amended): after a successful clear by a course admin, every formerly
active entry of the queue is archived with `removed_by` = remover and
`removed_at` set, `pinned = false` and `helped = false` (not `helped = true`;
`helping` is left unchanged); the admin sees `QUEUE_CLEAR` with the remover
and non-privileged clients a null one; a subsequent read returns an empty
active queue; and each cleared entry appears in the admin stack (whenever the
stack limit covers the queue's archived entries). -/
theorem c5_clear_archives (db : DB) (env : Env) (q : Nat) (queueRow : Queue)
    (actor : String) (limit : Nat)
    (hq : getQueue db q = some queueRow)
    (hadmin : courseAdmin db queueRow.course actor = true)
    (hlim : ((clearQueueEntries db q actor env.now).entries.filter
      (fun x => x.queue == q && !x.active)).length ≤ limit) :
    clearQueueEntriesHandler db env q actor =
      .ok (clearQueueEntries db q actor env.now,
        [⟨"QUEUE_CLEAR", .strPayload actor, .admin q⟩,
         ⟨"QUEUE_CLEAR", .nothing, .nonpriv q⟩], 204) ∧
    getQueueEntries (clearQueueEntries db q actor env.now) q = [] ∧
    ∀ e ∈ db.entries, e.active = true → e.queue = q →
      clearedRow e actor env.now ∈ (clearQueueEntries db q actor env.now).entries ∧
      clearedRow e actor env.now ∈
        getQueueStack (clearQueueEntries db q actor env.now) q limit := by
  refine ⟨?_, ?_, ?_⟩
  · unfold clearQueueEntriesHandler
    rw [hq]
    simp [hadmin]
  · unfold getQueueEntries
    have hfil : (clearQueueEntries db q actor env.now).entries.filter
        (fun e => e.queue == q && e.active) = [] := by
      rw [List.filter_eq_nil_iff]
      intro a ha
      unfold clearQueueEntries at ha
      obtain ⟨x, hx, rfl⟩ := List.mem_map.mp ha
      by_cases hc : x.active = true ∧ x.queue = q
      · simp [hc]
      · simp only [if_neg hc]
        intro hcon
        simp only [Bool.and_eq_true, beq_iff_eq] at hcon
        exact hc ⟨hcon.2, hcon.1⟩
    rw [hfil]
    rfl
  · intro e he hact hqe
    have hmem : clearedRow e actor env.now ∈
        (clearQueueEntries db q actor env.now).entries := by
      unfold clearQueueEntries
      refine List.mem_map.mpr ⟨e, he, ?_⟩
      rw [if_pos ⟨hact, hqe⟩]
      rfl
    refine ⟨hmem, ?_⟩
    have hmemf : clearedRow e actor env.now ∈
        (clearQueueEntries db q actor env.now).entries.filter
          (fun x => x.queue == q && !x.active) := by
      refine List.mem_filter.mpr ⟨hmem, ?_⟩
      simp [clearedRow, hqe]
    unfold getQueueStack
    have hperm := List.perm_insertionSort stackLe
      ((clearQueueEntries db q actor env.now).entries.filter
        (fun x => x.queue == q && !x.active))
    rw [List.take_of_length_le (by rw [hperm.length_eq]; exact hlim)]
    exact hperm.mem_iff.mpr hmemf

def c5entryActive : QueueEntry :=
  ⟨5, 1, "s@x", "Sam", "", "help me", 0, false, " Ta", false, true, none, none⟩

def c5db : DB := { db0 with entries := [c5entryActive], nextEntryId := 6 }

def c5archived : QueueEntry :=
  ⟨5, 1, "s@x", "Sam", "", "help me", 0, false, " Ta", false, false,
    some 0, some "ta@x"⟩

/-- C5, counterexample: clearing a queue holding one active entry that is
being helped archives it with `helped = false` (the claim says it appears in
the stack with `helped = true`) and leaves `helping` = " Ta" (the claim says
`helping = ""`). -/
theorem c5_clear_cex :
    clearQueueEntriesHandler c5db env0 1 "ta@x" =
      .ok (clearQueueEntries c5db 1 "ta@x" 0,
        [⟨"QUEUE_CLEAR", .strPayload "ta@x", .admin 1⟩,
         ⟨"QUEUE_CLEAR", .nothing, .nonpriv 1⟩], 204) ∧
    (clearQueueEntries c5db 1 "ta@x" 0).entries = [c5archived] ∧
    getQueueStack (clearQueueEntries c5db 1 "ta@x" 0) 1 20 = [c5archived] ∧
    c5archived.helped = false ∧ c5archived.helping = " Ta" := by
  exact ⟨by rfl, by rfl, by rfl, by rfl, by rfl⟩

/-- C5 witness: the amended statement at the concrete one-entry queue. -/
theorem c5_clear_archives_witness :
    getQueueEntries (clearQueueEntries c5db 1 "ta@x" env0.now) 1 = [] ∧
    clearedRow c5entryActive "ta@x" env0.now ∈
      getQueueStack (clearQueueEntries c5db 1 "ta@x" env0.now) 1 20 := by
  have h := c5_clear_archives c5db env0 1 ⟨1, 1, true⟩ "ta@x" 20 (by rfl)
    (by decide) (by decide)
  exact ⟨h.2.1, (h.2.2 c5entryActive (List.mem_singleton.mpr rfl) (by decide)
    (by decide)).2⟩

/-! ## C6: pin events -/

def c6entry : QueueEntry :=
  ⟨7, 1, "s@x", "Sam", "", "help", 0, false, "", true, false, some 100, some "ta@x"⟩

def c6db : DB := { db0 with entries := [c6entry], nextEntryId := 8 }

def c6pinned : QueueEntry := { c6entry with pinned := true }

/-- C6: on a successful pin by course admin ta@x of the archived entry owned
by s@x, the handler publishes STACK_REMOVE and a full ENTRY_CREATE to the
admin topic, an anonymized ENTRY_CREATE to the non-privileged topic, then a
full ENTRY_UPDATE to the email topic of the requesting admin (`email` from
the session), and ENTRY_PINNED to the owner's topic. The claim (and the
handler's own comment, "Send an update with more information to the user who
created the queue entry") expects that ENTRY_UPDATE on the owner's topic, but
it goes to queue:1:email:ta@x, not the owner s@x. -/
theorem c6_pin_events_bug :
    (∃ db2, pinQueueEntryHandler c6db 1 "ta@x" 7 =
      .ok (db2,
        [⟨"STACK_REMOVE", .fullEntry c6pinned, .admin 1⟩,
         ⟨"ENTRY_CREATE", .fullEntry c6pinned, .admin 1⟩,
         ⟨"ENTRY_CREATE", .anonEntry c6pinned, .nonpriv 1⟩,
         ⟨"ENTRY_UPDATE", .fullEntry c6pinned, .emailTopic 1 "ta@x"⟩,
         ⟨"ENTRY_PINNED", .fullEntry c6pinned, .emailTopic 1 "s@x"⟩], 204)) ∧
    c6entry.email = "s@x" ∧ ("ta@x" : String) ≠ "s@x" := by
  exact ⟨⟨_, by rfl⟩, by rfl, by decide⟩

/-! ## C7: insert failure classification -/

/-- The error dispatch of the signup handler around the entry INSERT
(server/api/queue.go, `errors.As(err, &p)` for `p : *pq.Error`): any Postgres
error yields 409 Conflict; everything else is surfaced and becomes 500. -/
def insertFailureStatus : PgError → Nat
  | .pq _ _ => 409
  | .generic _ => 500

/-- The claim's condition: the failure is the unique-constraint violation of
the one-active-entry-per-(queue,email) index (Postgres SQLSTATE 23505). -/
def isUniqueActiveViolation : PgError → Prop
  | .pq code _ => code = "23505"
  | .generic _ => False

instance : DecidablePred isUniqueActiveViolation := fun e => by
  unfold isUniqueActiveViolation
  cases e <;> infer_instance

/-- C7, counterexample: a Postgres not-null violation (SQLSTATE 23502) during
the entry INSERT is not a unique-constraint violation, yet the handler
classifies it as 409 Conflict rather than 500 Internal. -/
theorem c7_conflict_cex :
    insertFailureStatus (.pq "23502" "null value in column") = 409 ∧
    ¬ isUniqueActiveViolation (.pq "23502" "null value in column") := by
  exact ⟨by rfl, by decide⟩

/-- C7 (amended): the signup insert failure surfaces as 409 Conflict exactly
when the failure is a Postgres error of any kind (`errors.As` to `*pq.Error`
never inspects the SQLSTATE), and as 500 Internal exactly otherwise. -/
theorem c7_insert_failure_status (err : PgError) :
    (insertFailureStatus err = 409 ↔ ∃ code msg, err = .pq code msg) ∧
    (insertFailureStatus err = 500 ↔ ∃ msg, err = .generic msg) := by
  cases err with
  | pq code msg =>
    constructor
    · exact ⟨fun _ => ⟨code, msg, rfl⟩, fun _ => rfl⟩
    · constructor
      · intro h
        exact absurd h (by simp [insertFailureStatus])
      · rintro ⟨m, hm⟩
        cases hm
  | generic msg =>
    constructor
    · constructor
      · intro h
        exact absurd h (by simp [insertFailureStatus])
      · rintro ⟨c, m, hm⟩
        cases hm
    · exact ⟨fun _ => ⟨msg, rfl⟩, fun _ => rfl⟩

/-! ## C9: description validation -/

lemma validate_ok_iff (d : String) (prompts : List String) :
    validateQueueEntryDescription d prompts = .ok () ↔
      (d.utf8ByteSize ≤ maxDescriptionLength ∧
        (if prompts = [] then
           unmarshalStringList d = none ∧ unmarshalStringMapOk d = false
         else ∃ xs, unmarshalStringList d = some xs ∧
           xs.length = prompts.length ∧ ∀ x ∈ xs, goTrimSpace x ≠ "")) := by
  unfold validateQueueEntryDescription
  split
  next hlen =>
    simp only [reduceCtorEq, false_iff, not_and]
    intro hle
    omega
  next hlen =>
    have hle : d.utf8ByteSize ≤ maxDescriptionLength := by omega
    split
    next xs hxs =>
      split
      next hp =>
        have hpne : ¬(prompts = []) := by
          intro h
          subst h
          simp at hp
        rw [if_neg hpne]
        split
        next hne =>
          simp only [reduceCtorEq, false_iff, not_and]
          intro _
          rintro ⟨ys, hys, hylen, -⟩
          rw [hxs] at hys
          obtain rfl : xs = ys := Option.some.inj hys
          exact hne hylen
        next heq0 =>
          have hleq : xs.length = prompts.length := by
            by_contra hc
            exact heq0 hc
          split
          next i hi =>
            simp only [reduceCtorEq, false_iff, not_and]
            intro _
            rintro ⟨ys, hys, -, hall⟩
            rw [hxs] at hys
            obtain rfl : xs = ys := Option.some.inj hys
            have hpi := List.find?_some hi
            have himem := List.mem_of_find?_eq_some hi
            have hilt : i < xs.length := List.mem_range.mp himem
            have hgetd : xs.getD i "" = xs[i] := by
              rw [List.getD_eq_getElem?_getD, List.getElem?_eq_getElem hilt]
              rfl
            rw [hgetd] at hpi
            have : goTrimSpace xs[i] = "" := by simpa using hpi
            exact hall xs[i] (List.getElem_mem hilt) this
          next hnone =>
            simp only [true_iff]
            refine ⟨hle, ⟨xs, hxs, hleq, ?_⟩⟩
            intro x hx hx0
            obtain ⟨i, hilt, rfl⟩ := List.mem_iff_getElem.mp hx
            have := List.find?_eq_none.mp hnone i (List.mem_range.mpr hilt)
            apply this
            have hgetd : xs.getD i "" = xs[i] := by
              rw [List.getD_eq_getElem?_getD, List.getElem?_eq_getElem hilt]
              rfl
            rw [hgetd]
            exact decide_eq_true hx0
      next hp =>
        have hpe : prompts = [] := by
          rcases prompts with - | ⟨a, l⟩
          · rfl
          · simp at hp
        rw [if_pos hpe]
        simp [hxs]
    next hxs =>
      split
      next hp =>
        have hpne : ¬(prompts = []) := by
          intro h
          subst h
          simp at hp
        rw [if_neg hpne]
        simp [hxs]
      next hp =>
        have hpe : prompts = [] := by
          rcases prompts with - | ⟨a, l⟩
          · rfl
          · simp at hp
        rw [if_pos hpe]
        split
        next hobj =>
          simp [hxs, hobj]
        next hobj =>
          simp only [true_iff]
          exact ⟨hle, hxs, by simpa using hobj⟩

/-- C9, counterexample: with `prompts = []`, the description `[1]` IS
parseable as a JSON array (of one number), so the claim requires it to be
rejected; but the validator accepts it, because Go unmarshals into
`[]string` and a number element makes that unmarshal fail, and `[1]` is not
an object either. -/
theorem c9_description_cex :
    parseJsonDoc "[1]" = some (.jarr [.jnum "1"]) ∧
    validateQueueEntryDescription "[1]" [] = .ok () := by
  exact ⟨by rfl, by rfl⟩

/-- C9 (amended): a signup/update description is accepted iff it is
non-empty (handler check), at most 1500 bytes, and: with `prompts = []`, it
neither unmarshals as a `[]string` (a JSON array of strings/nulls, or null)
nor as a JSON object/null; with `prompts ≠ []`, it unmarshals as a `[]string`
whose length equals the number of prompts with every element non-empty after
trimming. -/
theorem c9_description_validation (description : String) (prompts : List String) :
    (description ≠ "" ∧
        validateQueueEntryDescription description prompts = .ok ()) ↔
      (description ≠ "" ∧ description.utf8ByteSize ≤ maxDescriptionLength ∧
        (if prompts = [] then
           unmarshalStringList description = none ∧
           unmarshalStringMapOk description = false
         else ∃ xs, unmarshalStringList description = some xs ∧
           xs.length = prompts.length ∧ ∀ x ∈ xs, goTrimSpace x ≠ "")) := by
  constructor
  · rintro ⟨hne, hok⟩
    obtain ⟨h1, h2⟩ := (validate_ok_iff description prompts).mp hok
    exact ⟨hne, h1, h2⟩
  · rintro ⟨hne, h1, h2⟩
    exact ⟨hne, (validate_ok_iff description prompts).mpr ⟨h1, h2⟩⟩

/-- C9 witness: both modes at concrete inputs. -/
theorem c9_description_validation_witness :
    (("help me" : String) ≠ "" ∧
      validateQueueEntryDescription "help me" [] = .ok ()) ∧
    (("[\"a\",\"b\"]" : String) ≠ "" ∧
      validateQueueEntryDescription "[\"a\",\"b\"]" ["A", "B"] = .ok ()) := by
  constructor
  · exact (c9_description_validation "help me" []).mpr
      ⟨by decide, by decide, by rw [if_pos rfl]; exact ⟨by rfl, by rfl⟩⟩
  · refine (c9_description_validation "[\"a\",\"b\"]" ["A", "B"]).mpr
      ⟨by decide, by decide, ?_⟩
    rw [if_neg (by decide)]
    exact ⟨["a", "b"], by rfl, by rfl, by decide⟩



/-! ## C8: open check -/

def strContainsSubstr (hay needle : String) : Bool :=
  decide (List.IsInfix needle.data hay.data)

lemma cooldownMessage_ne_closed (w : Nat) :
    cooldownMessage w ≠ "the queue is closed" := by
  intro h
  have hlen := congrArg String.length h
  rw [cooldownMessage, String.length_append] at hlen
  have h1 : 19 <
      ("you are attempting to sign up too soon after you were last helped. Try again in ").length := by
    decide
  have h2 : ("the queue is closed").length = 19 := by decide
  omega

lemma eligibilityTail_ne_closed (db : DB) (env : Env) (queue : Nat)
    (email : String) (config : QueueConfiguration) :
    eligibilityTail db env queue email config ≠ .error "the queue is closed" := by
  unfold eligibilityTail
  split
  · intro h
    exact absurd (Except.error.inj h) (by decide)
  · split
    · intro h
      exact absurd (Except.error.inj h) (by decide)
    · split
      · split
        · intro h
          exact cooldownMessage_ne_closed _ (Except.error.inj h)
        · simp
      · simp

/-- The condition under which the (amended) C8 says a non-admin signup is
rejected as closed: scheduled queues close exactly on the character `'c'`,
unscheduled ones on `manual_open = false`. -/
def closedCondition (config : QueueConfiguration) (sched : String) (env : Env) : Prop :=
  (config.scheduled = true ∧
      sched.data.getD (currentHalfHour env.localMinutes) 'c' = 'c') ∨
    (config.scheduled = false ∧ config.manualOpen = false)

instance (config : QueueConfiguration) (sched : String) (env : Env) :
    Decidable (closedCondition config sched env) := by
  unfold closedCondition; infer_instance

set_option maxRecDepth 8000 in
/-- C8 (amended): for a non-admin signup, `CanAddEntry` rejects the request
as closed iff the queue is scheduled and today's schedule character at the
current half-hour `floor(localMinutes/30)` equals `'c'` (not: is outside
`\x7bo,p\x7d` — unvalidated characters count as open), or the queue is
unscheduled with `manual_open = false`; in that case the signup handler
returns 403 with a message containing "closed". -/
theorem c8_closed_check (db : DB) (env : Env) (q : Nat) (queueRow : Queue)
    (config : QueueConfiguration) (email nm d loc : String) (sched : String)
    (hq : getQueue db q = some queueRow)
    (hadmin : courseAdmin db queueRow.course email = false)
    (hc : getQueueConfiguration db q = some config)
    (hs : config.scheduled = true → getCurrentDaySchedule db q env.day = some sched)
    (hempty : getActiveQueueEntriesForUser db q email = []) :
    (canAddEntry db env q email = .error "the queue is closed" ↔
      closedCondition config sched env) ∧
    (closedCondition config sched env →
      addQueueEntryHandler db env q email nm d loc =
        .error ⟨403, signupDenied "the queue is closed"⟩) ∧
    strContainsSubstr (signupDenied "the queue is closed") "closed" = true := by
  have hred : canAddEntry db env q email =
      (match openCheck db env q config with
        | .error e => .error e
        | .ok () => eligibilityTail db env q email config) := by
    unfold canAddEntry
    rw [hq]
    simp only [hadmin, Bool.false_eq_true, if_false]
    rw [hc]
  have hmain : canAddEntry db env q email = .error "the queue is closed" ↔
      closedCondition config sched env := by
    by_cases hcond : closedCondition config sched env
    · have hoc : openCheck db env q config = .error "the queue is closed" := by
        unfold openCheck
        rcases hcond with ⟨hsc, hch⟩ | ⟨hscf, hmof⟩
        · rw [if_pos hsc, hs hsc]
          dsimp only
          rw [if_pos hch]
        · rw [if_neg (by simp [hscf]), if_pos (by simp [hmof])]
      rw [hred, hoc]
      simp only [hcond, iff_true]
    · have hoc : openCheck db env q config = .ok () := by
        unfold openCheck
        unfold closedCondition at hcond
        push_neg at hcond
        by_cases hsc : config.scheduled = true
        · rw [if_pos hsc, hs hsc]
          dsimp only
          rw [if_neg (hcond.1 hsc)]
        · have hscf : config.scheduled = false := by
            rcases hb : config.scheduled
            · rfl
            · exact absurd hb hsc
          have hmo : config.manualOpen = true := by
            rcases hb : config.manualOpen
            · exact absurd hb (hcond.2 hscf)
            · rfl
          rw [if_neg (by simp [hscf]), if_neg (by simp [hmo])]
      rw [hred, hoc]
      simp only [hcond, iff_false]
      exact eligibilityTail_ne_closed db env q email config
  refine ⟨hmain, ?_, by decide⟩
  intro hcond
  unfold addQueueEntryHandler
  rw [hempty]
  simp only [List.length_nil, gt_iff_lt, Nat.lt_irrefl, if_false]
  rw [hmain.mpr hcond]

def cfgScheduled : QueueConfiguration :=
  { cfgOpen with scheduled := true, manualOpen := false }

def xs48 : String := String.mk (List.replicate 48 'x')

def c8base : DB := { db0 with configs := [(1, cfgScheduled)] }

def c8db : DB := { c8base with schedules := [(1, 0, xs48)] }

/-- C8, counterexample: a schedule of 48 `'x'` characters passes the schedule
update (which checks only the length), and a non-admin signup on that
scheduled queue succeeds with 201 although the current character `'x'` is not
in `\x7bo,p\x7d` — the claim requires the signup to be rejected as closed. -/
theorem c8_schedule_open_cex :
    updateQueueScheduleHandler c8base 1 (List.replicate 7 xs48) =
      .ok (c8db, [⟨"REFRESH", .nothing, .generic 1⟩], 204) ∧
    getCurrentDaySchedule c8db 1 env0.day = some xs48 ∧
    xs48.data.getD (currentHalfHour env0.localMinutes) 'c' = 'x' ∧
    ('x' ≠ 'o' ∧ 'x' ≠ 'p') ∧
    (∃ db3 evs, addQueueEntryHandler c8db env0 1 "s@x" "Sam" "help me" "" =
      .ok (db3, evs, 201)) := by
  exact ⟨by rfl, by rfl, by rfl, by decide, ⟨_, _, by rfl⟩⟩

def c8wcfg : QueueConfiguration := { cfgOpen with manualOpen := false }

def c8wdb : DB := { db0 with configs := [(1, c8wcfg)] }

/-- C8 witness: an unscheduled queue with `manual_open = false` rejects a
non-admin signup as closed with 403. -/
theorem c8_closed_check_witness :
    canAddEntry c8wdb env0 1 "s@x" = .error "the queue is closed" ∧
    addQueueEntryHandler c8wdb env0 1 "s@x" "Sam" "help me" "" =
      .error ⟨403, signupDenied "the queue is closed"⟩ ∧
    strContainsSubstr (signupDenied "the queue is closed") "closed" = true := by
  have h := c8_closed_check c8wdb env0 1 ⟨1, 1, true⟩ c8wcfg "s@x" "Sam" "help me"
    "" "" (by rfl) (by decide) (by rfl)
    (fun hsc => absurd hsc (by decide)) (by rfl)
  exact ⟨h.1.mpr (Or.inr ⟨rfl, rfl⟩), h.2.1 (Or.inr ⟨rfl, rfl⟩), h.2.2⟩

/-! ## C10: cooldown -/

/-- C10: for a non-admin signup on an open, unrestricted queue whose user was
last helped at time `t` with `now − t < cooldown`, `CanAddEntry` fails with
the remaining time formatted as "N seconds" (remainder under a minute),
"a minute" (under two minutes), or "N minutes"; the signup handler surfaces
it as 403. -/
theorem c10_cooldown (db : DB) (env : Env) (q : Nat) (queueRow : Queue)
    (config : QueueConfiguration) (email nm d loc : String) (t : Int)
    (hq : getQueue db q = some queueRow)
    (hadmin : courseAdmin db queueRow.course email = false)
    (hc : getQueueConfiguration db q = some config)
    (hsched : config.scheduled = false) (hopen : config.manualOpen = true)
    (hreg : config.preventUnregistered = false)
    (hgrp : config.preventGroups = false)
    (hlast : lastHelpedTime db q email = some t)
    (hcool : env.now - t < (config.cooldown : Int))
    (hempty : getActiveQueueEntriesForUser db q email = []) :
    (canAddEntry db env q email =
      .error (cooldownMessage ((t + (config.cooldown : Int) - env.now).toNat))) ∧
    (addQueueEntryHandler db env q email nm d loc =
      .error ⟨403,
        signupDenied (cooldownMessage ((t + (config.cooldown : Int) - env.now).toNat))⟩) ∧
    (∀ rem : Nat, cooldownMessage rem =
      "you are attempting to sign up too soon after you were last helped. Try again in " ++
        (if rem < 60 then toString rem ++ " seconds"
         else if rem < 120 then "a minute"
         else toString (rem / 60) ++ " minutes")) := by
  have hoc : openCheck db env q config = .ok () := by
    unfold openCheck
    rw [if_neg (by simp [hsched]), if_neg (by simp [hopen])]
  have hcan : canAddEntry db env q email =
      .error (cooldownMessage ((t + (config.cooldown : Int) - env.now).toNat)) := by
    unfold canAddEntry
    rw [hq]
    simp only [hadmin, Bool.false_eq_true, if_false]
    rw [hc]
    dsimp only
    rw [hoc]
    dsimp only
    unfold eligibilityTail
    rw [if_neg (by simp [hreg]), if_neg (by simp [hgrp]), hlast]
    dsimp only
    rw [if_pos hcool]
  refine ⟨hcan, ?_, ?_⟩
  · unfold addQueueEntryHandler
    rw [hempty]
    simp only [List.length_nil, gt_iff_lt, Nat.lt_irrefl, if_false]
    rw [hcan]
  · intro rem
    unfold cooldownMessage
    congr 1
    split_ifs <;> first | rfl | omega

def c10cfg : QueueConfiguration := { cfgOpen with cooldown := 60 }

def c10helped : QueueEntry :=
  ⟨5, 1, "s@x", "Sam", "", "old question", 0, false, "", true, false,
    some 1000, some "ta@x"⟩

def c10db : DB :=
  { db0 with configs := [(1, c10cfg)], entries := [c10helped], nextEntryId := 6 }

def c10env : Env := { now := 1030, day := 0, localMinutes := 0, firstIdOfDay := 0 }

set_option maxRecDepth 8000 in
/-- C10 witness: cooldown 60, helped removal at t = 1000, signup at
t + 30: 403 with a message containing "Try again in 30 seconds". -/
theorem c10_cooldown_witness :
    canAddEntry c10db c10env 1 "s@x" = .error (cooldownMessage 30) ∧
    addQueueEntryHandler c10db c10env 1 "s@x" "Sam" "help me" "" =
      .error ⟨403, signupDenied (cooldownMessage 30)⟩ ∧
    strContainsSubstr (signupDenied (cooldownMessage 30))
      "Try again in 30 seconds" = true := by
  have h := c10_cooldown c10db c10env 1 ⟨1, 1, true⟩ c10cfg "s@x" "Sam" "help me"
    "" 1000 (by rfl) (by decide) (by rfl) (by rfl) (by rfl) (by rfl) (by rfl)
    (by rfl) (by decide) (by rfl)
  exact ⟨h.1, h.2.1, by decide⟩

/-! ## C3: entry-targeted operations act by entry id -/

lemma find?_of_nodup_ids {l : List QueueEntry}
    (hnd : (l.map QueueEntry.id).Nodup) {e : QueueEntry} (he : e ∈ l)
    (p : QueueEntry → Bool) (hp : p e = true)
    (hid : ∀ x ∈ l, p x = true → x.id = e.id) :
    l.find? p = some e := by
  induction l with
  | nil => cases he
  | cons a l ih =>
    have hnd' : (a.id :: l.map QueueEntry.id).Nodup := by simpa using hnd
    by_cases hpa : p a = true
    · rw [List.find?_cons_of_pos _ hpa]
      have haid : a.id = e.id := hid a (List.mem_cons_self a l) hpa
      rcases List.mem_cons.mp he with rfl | hel
      · rfl
      · exfalso
        have hmapped : e.id ∈ l.map QueueEntry.id := List.mem_map.mpr ⟨e, hel, rfl⟩
        exact (List.nodup_cons.mp hnd').1 (haid ▸ hmapped)
    · rw [List.find?_cons_of_neg _ hpa]
      have hel : e ∈ l := by
        rcases List.mem_cons.mp he with rfl | hel
        · exact absurd hp hpa
        · exact hel
      exact ih (List.nodup_cons.mp hnd').2 hel
        (fun x hx hpx => hid x (List.mem_cons_of_mem a hx) hpx)

/-- The archived row written by `RemoveQueueEntry`. -/
def removedRow (e : QueueEntry) (remover : String) (now : Int) : QueueEntry :=
  { e with pinned := false, active := false, helping := "", removedAt := some now, removedBy := some remover, helped := true }

/-- The resurrected row written by `PinQueueEntry`. -/
def pinnedRow (x : QueueEntry) : QueueEntry :=
  { x with active := true, removedAt := none, removedBy := none, helped := false, pinned := true }

/-- C3: remove, pin, set_helping and set_not_helped act on whatever entry
carries the given id: authorization (and the pin conflict check) use the URL
queue, but the row update touches the entry found by id alone — nothing
compares the entry's queue to the URL queue, so an admin of the URL queue's
course mutates entries of any queue and course. `e.queue` is unconstrained
here; the witness instantiates it with a queue different from the URL's. -/
theorem c3_entry_ops_by_id (db : DB) (env : Env) (urlQ : Nat) (urlRow : Queue)
    (actor fn : String) (e : QueueEntry)
    (hq : getQueue db urlQ = some urlRow)
    (hadmin : courseAdmin db urlRow.course actor = true)
    (hmem : e ∈ db.entries) (hact : e.active = true)
    (hnodup : (db.entries.map QueueEntry.id).Nodup)
    (hsolo : ∀ b ∈ db.entries, b.id ≠ e.id → b.active = true →
      ¬(b.queue = e.queue ∧ b.email = e.email)) :
    (∃ db2 evs, removeQueueEntryHandler db env urlQ actor e.id =
        .ok (db2, evs, 204) ∧
      ({ e with pinned := false, active := false, helping := "", removedAt := some env.now, removedBy := some actor, helped := true } : QueueEntry) ∈ db2.entries) ∧
    (∃ db2 evs, pinQueueEntryHandler db urlQ actor e.id = .ok (db2, evs, 204) ∧
      ({ e with active := true, removedAt := none, removedBy := none, helped := false, pinned := true } : QueueEntry) ∈ db2.entries) ∧
    (∃ db2 evs, setQueueEntryHelpingHandler db urlQ actor fn e.id true =
        .ok (db2, evs, 204) ∧
      ({ e with helping := " " ++ fn } : QueueEntry) ∈ db2.entries) ∧
    (∃ db2 evs, setNotHelpedHandler db urlQ actor e.id = .ok (db2, evs, 204) ∧
      ({ e with helped := false } : QueueEntry) ∈ db2.entries) ∧
    canRemoveQueueEntry db urlQ e.id e.email = .ok true := by
  have hfindR : db.entries.find? (fun x => x.id == e.id && x.active) = some e :=
    find?_of_nodup_ids hnodup hmem _ (by simp [hact])
      (fun x _ hpx => by
        simp only [Bool.and_eq_true, beq_iff_eq] at hpx
        exact hpx.1)
  have hfindP : getQueueEntry db e.id true = some e := by
    unfold getQueueEntry
    exact find?_of_nodup_ids hnodup hmem _ (by simp)
      (fun x _ hpx => by
        simp only [Bool.and_eq_true, beq_iff_eq, Bool.true_or, Bool.and_true] at hpx
        exact hpx)
  have hfind2 : db.entries.find? (fun x => x.id == e.id) = some e :=
    find?_of_nodup_ids hnodup hmem _ (by simp)
      (fun x _ hpx => by simpa using hpx)
  refine ⟨?_, ?_, ?_, ?_, ?_⟩
  · have hcrm : canRemoveQueueEntry db urlQ e.id actor = .ok true := by
      unfold canRemoveQueueEntry
      rw [hq]
      simp [hadmin]
    refine ⟨{ db with entries := db.entries.map (fun x =>
        if x.id = e.id ∧ x.active then removedRow e actor env.now else x) },
      [⟨"ENTRY_REMOVE", .fullEntry (removedRow e actor env.now), .admin urlQ⟩,
       ⟨"ENTRY_REMOVE", .anonEntry (removedRow e actor env.now), .nonpriv urlQ⟩],
      ?_, ?_⟩
    · unfold removeQueueEntryHandler
      rw [hcrm]
      dsimp only
      unfold removeQueueEntry
      rw [hfindR]
      rfl
    · exact List.mem_map.mpr ⟨e, hmem, by rw [if_pos ⟨rfl, hact⟩]; rfl⟩
  · have hconf : activeConflict db.entries e.queue e.email e.id = false := by
      rcases hb : activeConflict db.entries e.queue e.email e.id
      · rfl
      · exfalso
        obtain ⟨b, hbmem, hbp⟩ := List.any_eq_true.mp hb
        simp only [Bool.and_eq_true, beq_iff_eq, decide_eq_true_eq,
          ne_eq] at hbp
        exact hsolo b hbmem hbp.1.1.1 hbp.1.1.2 ⟨hbp.1.2, hbp.2⟩
    refine ⟨{ db with entries := db.entries.map (fun x =>
        if x.id = e.id then pinnedRow x else x) },
      [⟨"STACK_REMOVE", .fullEntry { e with pinned := true }, .admin urlQ⟩,
       ⟨"ENTRY_CREATE", .fullEntry { e with pinned := true }, .admin urlQ⟩,
       ⟨"ENTRY_CREATE", .anonEntry { e with pinned := true }, .nonpriv urlQ⟩,
       ⟨"ENTRY_UPDATE", .fullEntry { e with pinned := true }, .emailTopic urlQ actor⟩,
       ⟨"ENTRY_PINNED", .fullEntry { e with pinned := true }, .emailTopic urlQ e.email⟩],
      ?_, ?_⟩
    · unfold pinQueueEntryHandler
      rw [hq]
      simp only [hadmin, Bool.not_true, Bool.false_eq_true, if_false]
      rw [hfindP]
      dsimp only
      rw [if_neg (by simp [hact])]
      unfold pinQueueEntry
      rw [hfind2]
      dsimp only
      rw [if_neg (by simp [hconf])]
      rfl
    · exact List.mem_map.mpr ⟨e, hmem, by rw [if_pos rfl]; rfl⟩
  · refine ⟨setQueueEntryHelping db e.id (" " ++ fn),
      [⟨"ENTRY_UPDATE", .anonEntry { e with helping := " " ++ fn }, .nonpriv urlQ⟩,
       ⟨"ENTRY_UPDATE", .fullEntry { e with helping := " " ++ fn }, .admin urlQ⟩,
       ⟨"ENTRY_UPDATE", .fullEntry { e with helping := " " ++ fn }, .emailTopic urlQ e.email⟩,
       ⟨"ENTRY_HELPING", .fullEntry { e with helping := " " ++ fn }, .emailTopic urlQ e.email⟩],
      ?_, ?_⟩
    · unfold setQueueEntryHelpingHandler
      rw [hq]
      simp only [hadmin, Bool.not_true, Bool.false_eq_true, if_false]
      rw [hfindP]
      rfl
    · exact List.mem_map.mpr ⟨e, hmem, by rw [if_pos rfl]⟩
  · refine ⟨setHelpedStatus db e.id false,
      [⟨"ENTRY_UPDATE", .removedEntryView { e with helped := false }, .admin urlQ⟩,
       ⟨"NOT_HELPED", .nothing, .emailTopic urlQ e.email⟩],
      ?_, ?_⟩
    · unfold setNotHelpedHandler
      rw [hq]
      simp only [hadmin, Bool.not_true, Bool.false_eq_true, if_false]
      rw [hfindP]
    · exact List.mem_map.mpr ⟨e, hmem, by rw [if_pos rfl]⟩
  · unfold canRemoveQueueEntry
    rw [hq]
    by_cases hA : courseAdmin db urlRow.course e.email = true
    · simp [hA]
    · simp only [Bool.not_eq_true] at hA
      simp only [hA, Bool.false_eq_true, if_false]
      rw [show (db.entries.any fun b => b.id == e.id && b.email == e.email) = true
        from List.any_eq_true.mpr ⟨e, hmem, by simp⟩]

def c3entry : QueueEntry :=
  ⟨7, 2, "s@x", "Sam", "", "help", 0, false, "", false, true, none, none⟩

def c3db : DB :=
  { queues := [⟨1, 1, true⟩, ⟨2, 2, true⟩],
    configs := [(1, cfgOpen), (2, cfgOpen)],
    schedules := [], roster := [], groups := [], courseAdmins := [(1, "ta@x")],
    entries := [c3entry], nextEntryId := 8 }

/-- C3 witness: ta@x, course admin only of queue 1's course, removes the
active entry of queue 2 (a different queue of a different course) through URL
queue 1; the entry is archived. The owner is likewise authorized via URL
queue 1. -/
theorem c3_entry_ops_by_id_witness :
    c3entry.queue = 2 ∧ (2 : Nat) ≠ 1 ∧ courseAdmin c3db 2 "ta@x" = false ∧
    (∃ db2 evs, removeQueueEntryHandler c3db env0 1 "ta@x" 7 =
        .ok (db2, evs, 204) ∧
      ({ c3entry with pinned := false, active := false, helping := "", removedAt := some env0.now, removedBy := some "ta@x", helped := true } : QueueEntry) ∈ db2.entries) ∧
    canRemoveQueueEntry c3db 1 7 "s@x" = .ok true := by
  have h := c3_entry_ops_by_id c3db env0 1 ⟨1, 1, true⟩ "ta@x" "Ta" c3entry
    (by rfl) (by decide) (List.mem_singleton.mpr rfl) (by rfl) (by decide)
    (by decide)
  exact ⟨rfl, by decide, by decide, h.1, h.2.2.2.2⟩

/-! ## C1: events versus the transaction commit -/

lemma runSteps_dbOnly (steps : List HandlerStep) :
    ∀ outcomes, ∀ a ∈ (runSteps steps outcomes).1, ∃ nm, a = .dbStep nm := by
  induction steps with
  | nil =>
    intro outcomes a ha
    simp [runSteps] at ha
  | cons s rest ih =>
    intro outcomes a ha
    rw [runSteps.eq_def] at ha
    dsimp only at ha
    by_cases hok : outcomes.headD true = true
    · rw [if_pos hok] at ha
      dsimp only at ha
      rcases List.mem_append.mp ha with h | h
      · cases s with
        | dbCall nm =>
          exact ⟨nm, by simpa using h⟩
        | checkCall nm => simp at h
      · exact ih outcomes.tail a h
    · rw [if_neg hok] at ha
      cases s with
      | dbCall nm =>
        exact ⟨nm, by simpa using ha⟩
      | checkCall nm => simp at ha

/-- C1 (amended): for every §4.3 mutation operation, the request trace built
by the handler inside the transaction middleware consists of database
statements only up to the point of failure; when every step succeeds, the
trace is exactly those statements, then all of the operation's publications,
then the commit — so every event is published after the handler's database
work but BEFORE the transaction commits; when any step fails, the trace ends
in a rollback and contains no publication at all. -/
theorem c1_events_after_db_before_commit :
    ∀ (n : Nat) (op : OpModel), op ∈ mutationOps n → ∀ outcomes : List Bool,
      (∀ a ∈ (runSteps op.steps outcomes).1, ∃ nm, a = .dbStep nm) ∧
      ((runSteps op.steps outcomes).2 = true →
        middlewareRun op outcomes =
          (runSteps op.steps outcomes).1 ++
            op.events.map TraceAction.publishStep ++ [.commit]) ∧
      ((runSteps op.steps outcomes).2 = false →
        middlewareRun op outcomes =
          (runSteps op.steps outcomes).1 ++ [.rollback] ∧
        ∀ a ∈ middlewareRun op outcomes, ∀ e, a ≠ .publishStep e) := by
  intro n op _ outcomes
  refine ⟨runSteps_dbOnly op.steps outcomes, ?_, ?_⟩
  · intro hsucc
    simp only [middlewareRun, handlerTrace]
    simp [hsucc, List.append_assoc]
  · intro hfail
    have hmr : middlewareRun op outcomes =
        (runSteps op.steps outcomes).1 ++ [.rollback] := by
      simp only [middlewareRun, handlerTrace]
      simp [hfail]
    refine ⟨hmr, ?_⟩
    intro a ha e
    rw [hmr] at ha
    rcases List.mem_append.mp ha with h | h
    · obtain ⟨nm, rfl⟩ := runSteps_dbOnly op.steps outcomes a h
      simp
    · have : a = TraceAction.rollback := by simpa using h
      subst this
      simp

/-- C1 witness: the signup trace with every step succeeding — database
statements, then the three publications, then the commit. -/
theorem c1_events_after_db_before_commit_witness :
    middlewareRun signupOp [] =
      [.dbStep "GetActiveQueueEntriesForUser", .dbStep "CanAddEntry",
       .dbStep "GetQueueConfiguration", .dbStep "GetEntryPriority",
       .dbStep "AddQueueEntry", .publishStep "ENTRY_CREATE",
       .publishStep "ENTRY_CREATE", .publishStep "ENTRY_UPDATE",
       .commit] := by
  have h := (c1_events_after_db_before_commit 0 signupOp (by decide) []).2.1 (by rfl)
  rw [h]
  rfl

/-- C1, counterexample: in the successful clear trace the two QUEUE_CLEAR
publications happen at positions 1 and 2, before the commit at position 3 —
the handlers call `s.ps.Pub` directly and the middleware commits only after
the handler returns, so no event is published "only after the transaction
has committed". -/
theorem c1_publish_before_commit_cex :
    middlewareRun clearOp [] =
      [.dbStep "ClearQueueEntries", .publishStep "QUEUE_CLEAR",
       .publishStep "QUEUE_CLEAR", .commit] ∧
    ¬ publishOnlyAfterCommit (middlewareRun clearOp []) := by
  have heq : middlewareRun clearOp [] =
      [.dbStep "ClearQueueEntries", .publishStep "QUEUE_CLEAR",
       .publishStep "QUEUE_CLEAR", .commit] := by rfl
  refine ⟨heq, ?_⟩
  rw [heq]
  intro h
  obtain ⟨j, hj, hcj⟩ := h ⟨1, by decide⟩ ⟨"QUEUE_CLEAR", rfl⟩
  have hjv : (j : Nat) < 1 := by simpa [Fin.lt_def] using hj
  have hj0 : (j : Nat) = 0 := by omega
  rw [show j = ⟨0, by decide⟩ from Fin.ext (by simp [hj0])] at hcj
  exact absurd hcj (by decide)
